import Mathlib

/-!
Verification of the becertain RCA engine against its specification.

The Python sources under src/ are embedded shallowly:

* Python floats are modelled as exact rationals (ℚ).  Non-finite floats
  (NaN/inf) have no counterpart, so the engine's finiteness filters become
  identities; no claim below depends on non-finite inputs.
* `sorted(...)` is Python's stable sort; it is embedded as a stable
  insertion sort (`pySorted`) parameterised by the strict precedes-check
  that the sort key induces.
* `round(x, n)` is embedded as round-half-to-even at `n` decimal digits
  (`roundTo`), the behaviour of Python's `round` on exactly representable
  values.
* Calls into numpy/scipy/sklearn that have no closed arithmetic form
  (IsolationForest, linregress slope, np.linalg.lstsq residuals, the
  F-distribution CDF) are oracle parameters of the embedded functions;
  everything computed around them is embedded exactly.  Claims are proved
  for every value of these oracles.
-/

namespace BC

/-! ## Generic helpers -/

/-- Stable insertion of x into a list: x is placed before the first element
that does not strictly precede it (`lt y x = true` means y strictly precedes
x in the target order). -/
def insBefore {α : Type} (lt : α → α → Bool) (x : α) : List α → List α
  | [] => [x]
  | y :: ys => if lt y x then y :: insBefore lt x ys else x :: y :: ys

/-- Stable sort (the embedding of Python sorted, which is stable): ascending
in the order whose strict part is `lt`. -/
def pySorted {α : Type} (lt : α → α → Bool) : List α → List α
  | [] => []
  | x :: xs => insBefore lt x (pySorted lt xs)

/-- Strict comparison on ℚ as a Bool, the sort key for plain float sorts. -/
def qlt (a b : ℚ) : Bool := decide (a < b)

/-- Sum of a list of rationals. -/
def qSum (l : List ℚ) : ℚ := l.foldr (fun x s => x + s) 0

/-- Arithmetic mean; Python/numpy mean of an empty list is an error, callers
guard emptiness, and division by zero in ℚ yields 0 here. -/
def qMean (l : List ℚ) : ℚ := qSum l / l.length

/-- Population variance (the square of numpy std with ddof=0). -/
def qVariance (l : List ℚ) : ℚ :=
  qSum (l.map (fun x => (x - qMean l) ^ 2)) / l.length

/-- Maximum of a list of rationals (numpy max; callers guard emptiness). -/
def qMax (l : List ℚ) : ℚ := l.foldl max (l.headD 0)

/-- Minimum of a list of rationals (numpy min; callers guard emptiness). -/
def qMin (l : List ℚ) : ℚ := l.foldl min (l.headD 0)

/-- Embedding of Python round(x, n): round half to even at n decimal digits. -/
def roundTo (n : ℕ) (x : ℚ) : ℚ :=
  let y : ℚ := x * (10 ^ n : ℕ)
  let f : ℤ := ⌊y⌋
  let frac : ℚ := y - f
  let r : ℤ :=
    if frac < 1/2 then f
    else if 1/2 < frac then f + 1
    else if f % 2 = 0 then f else f + 1
  (r : ℚ) / (10 ^ n : ℕ)

/-- Keep the first occurrence of each element (dict.fromkeys dedup). -/
def dedupKeepFirst : List String → List String
  | [] => []
  | x :: xs => x :: (dedupKeepFirst xs).filter (fun y => !(y = x : Bool))

/-- Check that the first list is an initial segment of the second. -/
def beginsWith : List Char → List Char → Bool
  | [], _ => true
  | _ :: _, [] => false
  | p :: ps, c :: cs => p = c && beginsWith ps cs

/-- Substring check on character lists (the Python `in` on str). -/
def containsSub (needle : List Char) : List Char → Bool
  | [] => needle.isEmpty
  | c :: rest => beginsWith needle (c :: rest) || containsSub needle rest

/-- ASCII lower-casing of one character (str.lower on the ASCII range, which
covers every string the engine compares). -/
def lowerChar (c : Char) : Char :=
  if 'A' ≤ c ∧ c ≤ 'Z' then Char.ofNat (c.toNat + 32) else c

/-- Python str.strip() restricted to ASCII whitespace. -/
def pyStrip (s : String) : String :=
  let ws : Char → Bool := fun c => c = ' ' || c = '\t' || c = '\n' || c = '\r'
  String.mk (((s.data.dropWhile ws).reverse.dropWhile ws).reverse)

/-- Embedding of profile.strip().lower().startswith("precision") from
analyzer._apply_precision_quality_gates and detection._is_precision_profile. -/
def isPrecisionProfile (s : String) : Bool :=
  beginsWith "precision".data ((pyStrip s).data.map lowerChar)

/-! ## Enums (engine/enums.py) -/

/-- Severity levels (engine/enums.py). -/
inductive Severity
  | low
  | medium
  | high
  | critical
deriving DecidableEq, Repr

/-- SEVERITY_WEIGHTS from config.py via Severity.weight(). -/
def Severity.weight : Severity → ℕ
  | .low => 1
  | .medium => 2
  | .high => 4
  | .critical => 8

/-- Severity.from_score with the configured cutoffs
severity_score_critical=0.75, severity_score_high=0.50,
severity_score_medium=0.25. -/
def Severity.from_score (score : ℚ) : Severity :=
  if 3/4 ≤ score then .critical
  else if 1/2 ≤ score then .high
  else if 1/4 ≤ score then .medium
  else .low

/-- Change types (engine/enums.py). -/
inductive ChangeType
  | spike
  | drop
  | drift
  | shift
  | oscillation
deriving DecidableEq, Repr

/-- RCA categories (engine/enums.py). -/
inductive RcaCategory
  | deployment
  | resource_exhaustion
  | dependency_failure
  | traffic_surge
  | error_propagation
  | slo_burn
  | unknown
deriving DecidableEq, Repr

/-! ## Adaptive signal weights (engine/ml/weights.py)

SignalWeights stores a Python dict from signal name to float weight.  The
dict is embedded as an insertion-ordered association list; DEFAULT_WEIGHTS
and REGISTRY_ALPHA come from config.py (0.30/0.35/0.35 and 0.2), and
_DEFAULT_FALLBACK is 1/len(Signal) = 1/4 because default_weight_fallback
is 0.  The alpha and update_count fields are not modelled: no claim below
reads them. -/

/-- Python dict lookup with default (weights.get(k, default)). -/
def lookupD (w : List (String × ℚ)) (k : String) (d : ℚ) : ℚ :=
  match w.find? (fun p => p.1 = k) with
  | some p => p.2
  | none => d

/-- Python dict assignment weights[k] = v: replace in place, else append. -/
def setKey : List (String × ℚ) → String → ℚ → List (String × ℚ)
  | [], k, v => [(k, v)]
  | p :: rest, k, v =>
    if p.1 = k then (p.1, v) :: rest else p :: setKey rest k v

/-- Sum of the stored weights (sum(self.weights.values())). -/
def sumValues (w : List (String × ℚ)) : ℚ := qSum (w.map Prod.snd)

/-- SignalWeights._normalize: divide every entry by the total, with the
Python `or 1.0` guard replacing a zero total by 1. -/
def normalizeW (w : List (String × ℚ)) : List (String × ℚ) :=
  let t := sumValues w
  let t1 := if t = 0 then 1 else t
  w.map (fun p => (p.1, p.2 / t1))

/-- SignalWeights.update(signal, was_correct) with alpha = 0.2 and fallback
1/4: exponential reward update on one key followed by _normalize. -/
def updateW (w : List (String × ℚ)) (k : String) (wasCorrect : Bool) :
    List (String × ℚ) :=
  let reward : ℚ := if wasCorrect then 1 else 0
  let current := lookupD w k (1/4)
  normalizeW (setKey w k ((1 - 1/5) * current + (1/5) * reward))

/-- DEFAULT_WEIGHTS from config.py, normalised by _normalise_weights. -/
def defaultWeights : List (String × ℚ) :=
  [("metrics", 3/10), ("logs", 7/20), ("traces", 7/20)]

/-- A finite sequence of update calls applied in order. -/
def applyUpdates (w : List (String × ℚ)) (us : List (String × Bool)) :
    List (String × ℚ) :=
  us.foldl (fun acc u => updateW acc u.1 u.2) w

/-- The three core signal names the spec sums over. -/
def coreSignals : List String := ["metrics", "logs", "traces"]

/-- Sum of the stored weights of the three core signals (reads use
SignalWeights.get semantics, i.e. fallback 1/4 for a missing key). -/
def coreSum (w : List (String × ℚ)) : ℚ :=
  lookupD w "metrics" (1/4) + lookupD w "logs" (1/4) + lookupD w "traces" (1/4)

/-! ## SLO burn evaluator (engine/slo/burn.py) -/

/-- SloBurnAlert (engine/slo/burn.py). -/
structure SloBurnAlert where
  service : String
  window_label : String
  error_rate : ℚ
  burn_rate : ℚ
  budget_consumed_pct : ℚ
  severity : Severity
deriving DecidableEq, Repr

/-- A burn window: (label, window_seconds, threshold, severity).  This is
settings.slo_burn_windows after _get_windows, whose Severity(sev) conversion
succeeds on all four configured entries. -/
def sloBurnWindows : List (String × ℚ × ℚ × Severity) :=
  [("1h", (3600 : ℚ), 72/5, Severity.critical),
   ("6h", (21600 : ℚ), 6, Severity.high),
   ("1d", (86400 : ℚ), 3, Severity.medium),
   ("3d", (259200 : ℚ), 1, Severity.low)]

/-- The alert built in the body of evaluate's window loop
(slo_month_seconds = 2592000). -/
def mkSloAlert (service : String) (error_rate burn duration : ℚ)
    (w : String × ℚ × ℚ × Severity) : SloBurnAlert :=
  { service := service
    window_label := w.1
    error_rate := roundTo 6 error_rate
    burn_rate := roundTo 3 burn
    budget_consumed_pct := roundTo 2 (min 100 ((burn * duration) / 2592000 * 100))
    severity := w.2.2.2 }

/-- The window loop of evaluate: skip windows with duration < 0.5·window,
emit on the first whose threshold the burn rate meets, then stop. -/
def sloFirstAlert (service : String) (error_rate burn duration : ℚ) :
    List (String × ℚ × ℚ × Severity) → List SloBurnAlert
  | [] => []
  | w :: rest =>
    if duration < w.2.1 * (1/2) then sloFirstAlert service error_rate burn duration rest
    else if w.2.2.1 ≤ burn then [mkSloAlert service error_rate burn duration w]
    else sloFirstAlert service error_rate burn duration rest

/-- A window qualifies for emission at the given duration and burn rate. -/
def sloQualifies (duration burn : ℚ) (w : String × ℚ × ℚ × Severity) : Prop :=
  ¬ (duration < w.2.1 * (1/2)) ∧ w.2.2.1 ≤ burn

/-- Embedding of evaluate (engine/slo/burn.py).  Mismatched count lists are
trimmed to the shorter one; taking min-length slices of equal-length lists is
the identity, so the trim is applied unconditionally here. -/
def sloEvaluate (service : String) (error_counts total_counts ts : List ℚ)
    (target_availability : ℚ) : List SloBurnAlert :=
  if error_counts = [] ∨ total_counts = [] ∨ ts.length < 2 then []
  else
    let n := min error_counts.length total_counts.length
    let ec := error_counts.take n
    let tc := total_counts.take n
    let duration := max 0 (ts.getLastD 0 - ts.headD 0)
    let total := qSum tc
    let errors := qSum ec
    if total = 0 then []
    else
      let error_rate := errors / total
      let allowed := 1 - target_availability
      if allowed ≤ 0 then []
      else sloFirstAlert service error_rate (error_rate / allowed) duration sloBurnWindows

/-! ## Severity rollup and predictive-only cap (engine/analyzer.py) -/

/-- One step of _overall_severity's running maximum: replace the best
severity when the item's weight is strictly larger. -/
def sevMax (b s : Severity) : Severity :=
  if b.weight < s.weight then s else b

/-- _overall_severity (engine/analyzer.py lines 53-59): nested loops over the
argument groups, keeping the maximum-weight severity, starting from low.
Each finding is embedded by its severity, the only field the function reads. -/
def overallSeverity (groups : List (List Severity)) : Severity :=
  groups.foldl (fun best g => g.foldl sevMax best) Severity.low

/-- The warning string appended when the predictive-only cap lowers the
severity. -/
def capWarning : String :=
  "Overall severity was capped at MEDIUM because only predictive signals were present without corroborating actionable anomalies."

/-- The severity rollup and predictive-only cap of analyze (engine/analyzer.py
lines 936-955).  Each finding list is embedded by the severities of its items;
error_propagation, root_causes, degradation_signals and change_points are
read only for emptiness. -/
def severityCapStage (ma lb lp sl slo fc : List Severity)
    (error_propagation root_causes degradation_signals change_points : List Severity)
    (warnings : List String) : Severity × List String :=
  let severity := overallSeverity [ma, lb, lp, sl, slo, fc]
  if (¬ (¬ ma = [] ∨ ¬ lb = [] ∨ ¬ lp = [] ∨ ¬ sl = [] ∨
          ¬ error_propagation = [] ∨ ¬ slo = [] ∨ ¬ root_causes = [])) ∧
      (¬ fc = [] ∨ ¬ degradation_signals = [] ∨ ¬ change_points = []) then
    if Severity.medium.weight < severity.weight then
      (Severity.medium, warnings ++ [capWarning])
    else (severity, warnings)
  else (severity, warnings)

/-! ## CUSUM change-point detector (engine/changepoint/cusum.py)

numpy std is the nonnegative square root of the population variance and is
irrational for most inputs, so the detector is embedded with the standard
deviation as an explicit parameter `sigma` constrained by 0 ≤ sigma and
sigma^2 = qVariance vals; every other quantity is computed exactly. -/

/-- ChangePoint (engine/changepoint/cusum.py). -/
structure ChangePoint where
  index : ℕ
  timestamp : ℚ
  value_before : ℚ
  value_after : ℚ
  magnitude : ℚ
  change_type : ChangeType
  metric_name : String
deriving DecidableEq, Repr

/-- _classify (engine/changepoint/cusum.py): spike/drop on large relative
delta (cusum_relative_cutoff = 0.6, with the 1e-9 guard), shift beyond 2σ,
else drift. -/
def cusumClassify (before after std : ℚ) : ChangeType :=
  let delta := after - before
  let relative := |delta| / (|before| + 1/1000000000)
  if 3/5 < relative then (if 0 < delta then ChangeType.spike else ChangeType.drop)
  else if 2 * std < |delta| then ChangeType.shift
  else ChangeType.drift

/-- numpy sign as an integer. -/
def qSign (x : ℚ) : ℤ := if 0 < x then 1 else if x < 0 then -1 else 0

/-- numpy diff: successive differences. -/
def qDiff (l : List ℚ) : List ℚ := l.zipWith (fun a b => b - a) l.tail

/-- _detect_oscillation (engine/changepoint/cusum.py) with the default
window = cusum_window = 10 and density cutoff
cusum_oscillation_density_cutoff = 0.3. -/
def detectOscillation (arr : List ℚ) : List ℕ :=
  let signs := (qDiff arr).map qSign
  let sc := signs.zipWith (fun a b => b - a) signs.tail
  let indices := (sc.enum.filter (fun p => 1 < p.2.natAbs)).map Prod.fst
  if indices.length < 5 then []
  else if (3 : ℚ)/10 < (indices.length : ℚ) / (arr.length : ℚ) then indices else []

/-- The body of detect's loop over i in range(1, len(arr)): accumulate the
positive and negative CUSUMs, emit a ChangePoint and reset both on a
threshold crossing.  `items` carries the (index, value) pairs still to
process; `arr` and `ts` stay whole for the ±5-sample windows. -/
def cusumGo (ts arr : List ℚ) (mu sigma k h : ℚ) (osc : List ℕ)
    (metric_name : String) :
    List (ℕ × ℚ) → ℚ → ℚ → List ChangePoint
  | [], _, _ => []
  | (i, a) :: rest, pos, neg =>
    let pos1 := max 0 (pos + a - mu - k)
    let neg1 := max 0 (neg - a + mu - k)
    if h < pos1 ∨ h < neg1 then
      let before := qMean ((arr.drop (i - 5)).take (min i 5))
      let after := qMean ((arr.drop i).take 5)
      let ctype :=
        if i ∈ osc then ChangeType.oscillation else cusumClassify before after sigma
      { index := i
        timestamp := ts.getD i 0
        value_before := roundTo 4 before
        value_after := roundTo 4 after
        magnitude := roundTo 3 (|after - before| / sigma)
        change_type := ctype
        metric_name := if metric_name = "" then "metric" else metric_name }
        :: cusumGo ts arr mu sigma k h osc metric_name rest 0 0
    else cusumGo ts arr mu sigma k h osc metric_name rest pos1 neg1

/-- Embedding of detect (engine/changepoint/cusum.py), with cusum_k = 0.5 and
sigma the (parameterised) numpy std of vals. -/
def cusumDetect (ts vals : List ℚ) (threshold_sigma : ℚ) (metric_name : String)
    (sigma : ℚ) : List ChangePoint :=
  if vals.length < 10 then []
  else
    let mu := qMean vals
    if sigma = 0 then []
    else
      cusumGo ts vals mu sigma ((1/2) * sigma) (threshold_sigma * sigma)
        (detectOscillation vals) metric_name (vals.enum.drop 1) 0 0

/-! ## Temporal correlation (engine/correlation/temporal.py)

Findings are embedded with the fields the correlation engine reads
(api/responses models; the purely descriptive fields are omitted).  The
string munging that extracts service tokens from metric label strings
(_SERVICE_LABEL_RE/_tokenize) and the quote-stripping service normaliser
(_normalize_service) are oracle parameters; the claims hold for every value
of these oracles. -/

/-- MetricAnomaly (api/responses): the fields the engine computes and the
quality gates read; the free-text description is omitted. -/
structure MetricAnomaly where
  metric_name : String
  timestamp : ℚ
  value : ℚ
  change_type : ChangeType
  z_score : ℚ
  mad_score : ℚ
  isolation_score : ℚ
  expected_range : ℚ × ℚ
  severity : Severity
deriving DecidableEq, Repr

/-- LogBurst (api/responses) restricted to the window the correlator reads
(rate fields and severity are not read by correlate). -/
structure LogBurst where
  window_start : ℚ
  window_end : ℚ
deriving DecidableEq, Repr

/-- ServiceLatency (api/responses) restricted to the fields correlate reads;
window_start and window_end are Optional in the model. -/
structure ServiceLatency where
  service : String
  window_start : Option ℚ
  window_end : Option ℚ
deriving DecidableEq, Repr

/-- CorrelatedEvent (engine/correlation/temporal.py). -/
structure CorrelatedEvent where
  window_start : ℚ
  window_end : ℚ
  metric_anomalies : List MetricAnomaly
  log_bursts : List LogBurst
  service_latency : List ServiceLatency
  signal_count : ℕ
  confidence : ℚ
deriving DecidableEq, Repr

/-- _overlap (engine/correlation/temporal.py). -/
def overlapW (a_start a_end b_start b_end : ℚ) : Prop :=
  a_start ≤ b_end ∧ b_start ≤ a_end

instance overlapW_dec (a_start a_end b_start b_end : ℚ) :
    Decidable (overlapW a_start a_end b_start b_end) :=
  inferInstanceAs (Decidable (_ ∧ _))

/-- _latency_window (engine/correlation/temporal.py): swap a reversed
window; None passes through. -/
def latencyWindow (l : ServiceLatency) : Option ℚ × Option ℚ :=
  match l.window_start, l.window_end with
  | some s, some e => if e < s then (some e, some s) else (some s, some e)
  | s, e => (s, e)

/-- The latency-row filter of correlate's loop body for one window, given
the already-collected correlated service tokens. -/
def latencyKeep (normService : String → String) (services : List String)
    (ws we : ℚ) (l : ServiceLatency) : Bool :=
  let sname := normService l.service
  match latencyWindow l with
  | (some s, some e) =>
    decide (¬ sname = "") && decide (¬ services = []) && decide (sname ∈ services) &&
    decide (overlapW ws we s e)
  | _ => false

/-- The loop body of correlate over the sorted anchor list: skip used
anchors, collect the window's anomalies, bursts and matching latency rows,
emit only on signal_count ≥ 2 and then mark every anchor inside the window
as used.  Weights: correlation_weight_time = 0.30,
correlation_weight_latency = 0.35, correlation_weight_errors = 0.35,
correlation_score_max = 1.0, correlation_errors_cap = 0.35. -/
def correlateGo (metricTokens : String → List String)
    (burstTokens : LogBurst → List String) (normService : String → String)
    (ma : List MetricAnomaly) (lb : List LogBurst) (sl : List ServiceLatency)
    (w : ℚ) (allAnchors : List ℚ) :
    List ℚ → List ℚ → List CorrelatedEvent
  | [], _ => []
  | anchor :: rest, used =>
    if anchor ∈ used then
      correlateGo metricTokens burstTokens normService ma lb sl w allAnchors rest used
    else
      let ws := anchor - w
      let we := anchor + w
      let ma1 := ma.filter (fun a => decide (ws ≤ a.timestamp) && decide (a.timestamp ≤ we))
      let lb1 := lb.filter (fun b => decide (overlapW ws we b.window_start b.window_end))
      let services :=
        (ma1.map (fun a => metricTokens a.metric_name)).flatten ++
        (lb1.map burstTokens).flatten
      let sl1 := sl.filter (latencyKeep normService services ws we)
      let sig := ma1.length + lb1.length + sl1.length
      if sig < 2 then
        correlateGo metricTokens burstTokens normService ma lb sl w allAnchors rest used
      else
        let metric_score := min 1 ((ma1.length : ℚ) * (3/10))
        let log_score := min 1 ((lb1.length : ℚ) * (7/20))
        let trace_score := min (7/20) ((sl1.length : ℚ) * (7/20))
        { window_start := ws
          window_end := we
          metric_anomalies := ma1
          log_bursts := lb1
          service_latency := sl1
          signal_count := sig
          confidence := roundTo 3 (min 1 (metric_score + log_score + trace_score)) }
          :: correlateGo metricTokens burstTokens normService ma lb sl w allAnchors rest
               (used ++ allAnchors.filter (fun a => decide (ws ≤ a) && decide (a ≤ we)))

/-- Embedding of correlate (engine/correlation/temporal.py): anchors are the
metric-anomaly timestamps and burst window starts, sorted ascending; events
are emitted by the windowed loop and finally sorted by descending
confidence. -/
def correlate (metricTokens : String → List String)
    (burstTokens : LogBurst → List String) (normService : String → String)
    (ma : List MetricAnomaly) (lb : List LogBurst) (sl : List ServiceLatency)
    (w : ℚ) : List CorrelatedEvent :=
  let anchors := pySorted qlt ((ma.map (fun a => a.timestamp)) ++ (lb.map (fun b => b.window_start)))
  if anchors = [] then []
  else
    pySorted (fun e1 e2 => decide (e2.confidence < e1.confidence))
      (correlateGo metricTokens burstTokens normService ma lb sl w anchors anchors [])

/-! ## Granger pair analysis (engine/causal/granger.py)

np.linalg.lstsq computes a least-squares fit; its residual sum of squares is
an oracle parameter `ols` applied to the lag matrices the code builds (the
matrices are embedded exactly, as lists of columns, the way the code
assembles them).  The F-distribution CDF from scipy is the oracle `fcdf`. -/

/-- GrangerResult (engine/causal/granger.py). -/
structure GrangerResult where
  cause_metric : String
  effect_metric : String
  max_lag : ℕ
  f_statistic : ℚ
  p_value : ℚ
  is_causal : Bool
  strength : ℚ
deriving DecidableEq, Repr

/-- _lag_matrix (engine/causal/granger.py): the intercept column of ones
followed by the lag columns series[max_lag-lag : max_lag-lag+n]. -/
def lagMatrix (series : List ℚ) (maxLag : ℕ) : List (List ℚ) :=
  let n := series.length - maxLag
  (List.replicate n (1 : ℚ)) ::
    (List.range maxLag).map (fun j => (series.drop (maxLag - (j + 1))).take n)

/-- The cause's lag columns appended to the restricted design matrix. -/
def causeLagCols (cause : List ℚ) (maxLag n : ℕ) : List (List ℚ) :=
  (List.range maxLag).map (fun j => (cause.drop (maxLag - (j + 1))).take n)

/-- Embedding of granger_pair_analysis (engine/causal/granger.py) with the
defaults granger_max_lag = 3, granger_p_threshold = 0.05 and
granger_strength_scale = 10 passed explicitly. -/
def grangerPair (cause_name : String) (cause_vals : List ℚ) (effect_name : String)
    (effect_vals : List ℚ) (maxLag : ℕ) (p_threshold : ℚ)
    (ols : List (List ℚ) → List ℚ → ℚ) (fcdf : ℚ → ℕ → ℤ → ℚ) :
    Option GrangerResult :=
  if ¬ (cause_vals.length = effect_vals.length) ∨ cause_vals.length < maxLag + 10 then
    none
  else
    let n := effect_vals.length - maxLag
    let y := effect_vals.drop maxLag
    let Xr := lagMatrix effect_vals maxLag
    let ssR := ols Xr y
    let Xu := Xr ++ causeLagCols cause_vals maxLag n
    let ssU := ols Xu y
    let denom : ℤ := (n : ℤ) - 2 * (maxLag : ℤ) - 1
    if denom ≤ 0 ∨ ssU = 0 then none
    else
      let f := ((ssR - ssU) / (maxLag : ℚ)) / (ssU / (denom : ℚ))
      let p := 1 - fcdf f maxLag denom
      some
        { cause_metric := cause_name
          effect_metric := effect_name
          max_lag := maxLag
          f_statistic := roundTo 4 f
          p_value := roundTo 6 p
          is_causal := decide (p < p_threshold) && decide (1 < f)
          strength := roundTo 3 (max 0 (1 - p) * min 1 (f / 10)) }

/-- The restricted residual sum of squares: the OLS residual of the effect
on its own lags plus intercept. -/
def grangerSSR (effect_vals : List ℚ) (maxLag : ℕ)
    (ols : List (List ℚ) → List ℚ → ℚ) : ℚ :=
  ols (lagMatrix effect_vals maxLag) (effect_vals.drop maxLag)

/-- The unrestricted residual sum of squares: the OLS residual after adding
the cause's lag columns. -/
def grangerSSU (cause_vals effect_vals : List ℚ) (maxLag : ℕ)
    (ols : List (List ℚ) → List ℚ → ℚ) : ℚ :=
  ols (lagMatrix effect_vals maxLag ++
        causeLagCols cause_vals maxLag (effect_vals.length - maxLag))
      (effect_vals.drop maxLag)

/-! ## RCA hypothesis generation (engine/rca/hypothesis.py, engine/rca/scoring.py)

score_correlated_event is embedded exactly with math.log1p on the integer
counts as the parameter `logF` (logF n stands for log1p(n) = ln(1 + n));
theorems constrain logF only by facts the real log1p satisfies (log1p 0 = 0
and bounds on log1p 1 / log1p 200 = ln 2 / ln 201 ≈ 0.1307).  The
enumeration order of Python set literals (list(set(...))) is the oracle
`setList`.  The registry argument is embedded by the deployment list it
yields (event_registry.list_all(), [] for None), and the dependency graph by
its two query functions. -/

/-- DeploymentEvent (engine/events/registry.py) restricted to the fields
hypothesis generation reads. -/
structure DeploymentEvent where
  service : String
  timestamp : ℚ
  version : String
deriving DecidableEq, Repr

/-- LogPattern (api/responses) restricted to the fields generate reads. -/
structure LogPattern where
  pattern : String
  severity : Severity
deriving DecidableEq, Repr

/-- ErrorPropagation (api/responses) restricted to the fields generate
reads. -/
structure ErrorPropagation where
  source_service : String
  affected_services : List String
deriving DecidableEq, Repr

/-- The dependency graph as the two queries generate makes
(blast_radius(s).affected_downstream and find_upstream_roots). -/
structure GraphOps where
  blast_radius_downstream : String → List String
  find_upstream_roots : String → List String

/-- RootCause (engine/rca/hypothesis.py). -/
structure RootCause where
  hypothesis : String
  confidence : ℚ
  severity : Severity
  category : RcaCategory
  evidence : List String
  contributing_signals : List String
  affected_services : List String
  recommended_action : String
  deployment : Option DeploymentEvent
deriving DecidableEq, Repr

/-- The .value string of an RcaCategory member. -/
def RcaCategory.value : RcaCategory → String
  | .deployment => "deployment"
  | .resource_exhaustion => "resource_exhaustion"
  | .dependency_failure => "dependency_failure"
  | .traffic_surge => "traffic_surge"
  | .error_propagation => "error_propagation"
  | .slo_burn => "slo_burn"
  | .unknown => "unknown"

/-- Python s[:n] on a string. -/
def sliceChars (n : ℕ) (s : String) : String := String.mk (s.data.take n)

/-- Python sep.join(l). -/
def pyJoin (sep : String) : List String → String
  | [] => ""
  | [x] => x
  | x :: xs => x ++ sep ++ pyJoin sep xs

/-- Python min(l, key=k): the first element with minimal key. -/
def pyMinBy (key : DeploymentEvent → ℚ) (l : List DeploymentEvent) :
    Option DeploymentEvent :=
  match l with
  | [] => none
  | x :: xs => some (xs.foldl (fun best d => if key d < key best then d else best) x)

/-- _signals_from_event (engine/rca/hypothesis.py). -/
def signalsFromEvent (event : CorrelatedEvent) : List String :=
  let metric_names := dedupKeepFirst
    ((event.metric_anomalies.map MetricAnomaly.metric_name).filter
      (fun n => !(decide (n = ""))))
  let latency_services := dedupKeepFirst
    ((event.service_latency.map ServiceLatency.service).filter
      (fun s => !(decide (s = ""))))
  let signals :=
    ((metric_names.take 3).map (fun n => "metric:" ++ n)) ++
    (if event.log_bursts = [] then [] else ["log:bursts"]) ++
    ((latency_services.take 2).map (fun s => "trace:" ++ s))
  if signals = [] then ["metrics"] else signals

/-- _action_for_category (engine/rca/hypothesis.py). -/
def actionForCategory (c : RcaCategory) (service : String) : String :=
  match c with
  | .deployment =>
    "Rollback recent deployment for " ++
      (if service = "" then "affected service" else service) ++ "."
  | .resource_exhaustion => "Check resource limits, scale horizontally or increase quotas."
  | .dependency_failure => "Inspect downstream dependencies and circuit breakers."
  | .traffic_surge => "Verify rate limits, auto-scaling triggers, and CDN caching."
  | .error_propagation =>
    "Isolate " ++ (if service = "" then "source service" else service) ++
      " and check recent changes."
  | .slo_burn => "Immediate incident response; error budget critical."
  | .unknown => "Review correlated signals and recent changes."

/-- score_deployment_correlation (engine/rca/scoring.py) with
rca_deploy_window_seconds = 300. -/
def score_deployment_correlation (anomaly_ts : ℚ)
    (deployments : List DeploymentEvent) : ℚ :=
  let nearby := deployments.filter (fun d => decide (|d.timestamp - anomaly_ts| ≤ 300))
  if nearby = [] then 0
  else roundTo 3 (max 0 (1 - qMin (nearby.map (fun d => |d.timestamp - anomaly_ts|)) / 300))

/-- score_error_propagation (engine/rca/scoring.py) with
rca_baseline_base = 0.5, rca_baseline_affected_factor = 0.1 and
rca_errorprop_max = 0.95. -/
def score_error_propagation (props : List ErrorPropagation) : ℚ :=
  if props = [] then 0
  else
    let affected := qSum (props.map (fun p => (p.affected_services.length : ℚ)))
    roundTo 3 (min (19/20) (1/2 + affected * (1/10)))

/-- Python max((a.severity.weight() for a in l), default=1). -/
def maxSevWeight : List MetricAnomaly → ℕ
  | [] => 1
  | a :: rest => rest.foldl (fun m b => max m b.severity.weight) a.severity.weight

/-- score_correlated_event (engine/rca/scoring.py) with the configured
rca_weights metrics = 0.40, logs = 0.25, traces = 0.35, the log1p count
normalization (log1p as the parameter logF on the integer counts, with
denominators log1p(200.0) and log1p(50.0)), the severity boost
0.1 * min(1, max_weight/8) and correlation_score_max = 1. -/
def score_correlated_event (logF : ℕ → ℚ) (event : CorrelatedEvent) : ℚ :=
  let metric_factor := min 1 (logF event.metric_anomalies.length / logF 200)
  let log_factor := min 1 (logF event.log_bursts.length / logF 50)
  let trace_factor := min 1 (logF event.service_latency.length / logF 50)
  let metric_component := (2/5) * metric_factor
  let log_component := (1/4) * log_factor
  let trace_component := (7/20) * trace_factor
  let severity_boost := (1/10) * min 1 ((maxSevWeight event.metric_anomalies : ℚ) / 8)
  let blended := (metric_component + log_component + trace_component) *
    (7/10 + (3/10) * event.confidence)
  roundTo 3 (min 1 (blended + severity_boost))

/-- categorize (engine/rca/scoring.py) with rca_deploy_score_cutoff = 0.65. -/
def categorize (event : CorrelatedEvent) (deployments : List DeploymentEvent) :
    RcaCategory :=
  let deploy_score :=
    if deployments = [] then 0 else score_deployment_correlation event.window_start deployments
  if (13/20 : ℚ) < deploy_score then .deployment
  else
    let has_memory := event.metric_anomalies.any (fun a =>
      containsSub "memory".data a.metric_name.data ||
      containsSub "mem".data a.metric_name.data)
    let has_cpu := event.metric_anomalies.any (fun a =>
      containsSub "cpu".data a.metric_name.data)
    if has_memory || has_cpu then .resource_exhaustion
    else if ¬ event.service_latency = [] then .dependency_failure
    else
      let has_traffic := event.metric_anomalies.any (fun a =>
        containsSub "request".data a.metric_name.data ||
        containsSub "rate".data a.metric_name.data)
      if has_traffic then .traffic_surge
      else .unknown

/-- The RootCause built for one correlated event in generate's first loop
(rca_event_confidence_threshold = 0.3, rca_score_cap = 0.99,
rca_deploy_window_seconds = 300). -/
def eventCause (logF : ℕ → ℚ)
    (setList : List String → List String) (graph : Option GraphOps)
    (deployments : List DeploymentEvent) (event : CorrelatedEvent) :
    Option RootCause :=
  if event.confidence < 3/10 then none
  else
    let category := categorize event deployments
    let base_score := score_correlated_event logF event
    let deploy_score := score_deployment_correlation event.window_start deployments
    let confidence := roundTo 3 (min (99/100) (base_score + deploy_score * (1/5)))
    let nearby := deployments.filter
      (fun d => decide (|d.timestamp - event.window_start| ≤ 300))
    let deploy_event := pyMinBy (fun d => |d.timestamp - event.window_start|) nearby
    let rootAffected : List String × String :=
      match event.service_latency, graph with
      | l0 :: _, some g => (g.blast_radius_downstream l0.service, l0.service)
      | _, _ => ([], "")
    let metric_names := (setList (event.metric_anomalies.map MetricAnomaly.metric_name)).take 2
    let svc_names := (setList (event.service_latency.map ServiceLatency.service)).take 2
    let parts :=
      (match deploy_event with
       | some d => ["deployment of " ++ d.service ++ " v" ++ d.version]
       | none => []) ++
      (if metric_names = [] then [] else ["metric anomaly in " ++ pyJoin ", " metric_names]) ++
      (if svc_names = [] then [] else ["latency spike in " ++ pyJoin ", " svc_names]) ++
      (if event.log_bursts = [] then []
       else [Nat.repr event.log_bursts.length ++ " log burst(s)"])
    let joined := pyJoin " + " parts
    some
      { hypothesis := "[" ++ category.value ++ "] Correlated incident: " ++
          (if joined = "" then "multi-signal event" else joined)
        confidence := confidence
        severity := Severity.from_score confidence
        category := category
        evidence :=
          ["metrics=" ++ Nat.repr event.metric_anomalies.length,
           "log_bursts=" ++ Nat.repr event.log_bursts.length,
           "latency_services=" ++ Nat.repr event.service_latency.length]
        contributing_signals := signalsFromEvent event
        affected_services := rootAffected.1
        recommended_action := actionForCategory category rootAffected.2
        deployment := deploy_event }

/-- Embedding of generate (engine/rca/hypothesis.py): event causes, then
error-propagation causes, then the aggregate critical-log-pattern cause;
sort by descending confidence; keep those at or above
rca_min_confidence_display = 0.12, else tag and return only the top one. -/
def generate (logF : ℕ → ℚ)
    (setList : List String → List String)
    (metric_anomalies : List MetricAnomaly) (log_bursts : List LogBurst)
    (log_patterns : List LogPattern) (service_latency : List ServiceLatency)
    (error_propagation : List ErrorPropagation)
    (correlated_events : List CorrelatedEvent)
    (graph : Option GraphOps) (deployments : List DeploymentEvent) :
    List RootCause :=
  let eventCauses := correlated_events.filterMap
    (eventCause logF setList graph deployments)
  let propCauses := error_propagation.map (fun prop =>
    let conf := score_error_propagation [prop]
    let upstream := match graph with
      | some g => g.find_upstream_roots prop.source_service
      | none => []
    { hypothesis := "[error_propagation] Errors originating from " ++
        prop.source_service ++ ", cascading to " ++
        pyJoin ", " (prop.affected_services.take 3)
      confidence := conf
      severity := Severity.high
      category := RcaCategory.error_propagation
      evidence := []
      contributing_signals := ["trace:propagation:" ++ prop.source_service]
      affected_services := dedupKeepFirst (upstream ++ prop.affected_services)
      recommended_action := actionForCategory RcaCategory.error_propagation prop.source_service
      deployment := none })
  let critical_patterns := log_patterns.filter (fun p => decide (3 ≤ p.severity.weight))
  let patternCauses : List RootCause :=
    match critical_patterns with
    | [] => []
    | p0 :: _ =>
      [{ hypothesis := "[log_pattern] " ++ Nat.repr critical_patterns.length ++
           " critical pattern(s): " ++ sliceChars 80 p0.pattern
         confidence := 3/5
         severity := Severity.high
         category := RcaCategory.unknown
         evidence := []
         contributing_signals :=
           (critical_patterns.take 3).map (fun p => "log:" ++ sliceChars 40 p.pattern)
         affected_services := []
         recommended_action := "Review high-severity log patterns for error root cause."
         deployment := none }]
  let causes := pySorted (fun c1 c2 => decide (c2.confidence < c1.confidence))
    (eventCauses ++ propCauses ++ patternCauses)
  let filtered := causes.filter (fun c => decide ((3/25 : ℚ) ≤ c.confidence))
  if ¬ filtered = [] then filtered
  else
    match causes with
    | [] => []
    | top :: _ => [{ top with hypothesis := "[low_confidence] " ++ top.hypothesis }]

/-! ## Metric anomaly detection (engine/anomaly/detection.py)

numpy std is parameterised as `sigma` (0 ≤ sigma, sigma² = qVariance vals;
the same std normalises the z-scores and the internal CUSUM).  The isolation
forest's labels and score_samples and the linregress trend slope are oracle
inputs (the contamination computed from sensitivity and the precision
profile only feeds the forest).  The finiteness filter is the identity on
rational inputs. -/

/-- numpy median: middle element, or the mean of the two middle ones. -/
def qMedian (l : List ℚ) : ℚ :=
  let s := pySorted qlt l
  let n := s.length
  if n % 2 = 1 then s.getD (n / 2) 0
  else (s.getD (n / 2 - 1) 0 + s.getD (n / 2) 0) / 2

/-- numpy percentile with linear interpolation. -/
def qPercentile (arr : List ℚ) (q : ℚ) : ℚ :=
  let s := pySorted qlt arr
  let rank := q / 100 * ((s.length : ℚ) - 1)
  let i : ℕ := (⌊rank⌋).toNat
  let frac := rank - (⌊rank⌋ : ℚ)
  s.getD i 0 + frac * (s.getD (i + 1) (s.getD i 0) - s.getD i 0)

/-- _mad_scores (engine/anomaly/detection.py) with anomaly_mad_scale =
0.6745. -/
def madScores (arr : List ℚ) : List ℚ :=
  let med := qMedian arr
  let mad := qMedian (arr.map (fun x => |x - med|))
  if mad = 0 then arr.map (fun _ => 0)
  else arr.map (fun v => (6745/10000) * (v - med) / mad)

/-- The accumulation loop of _cusum_changepoints over the normalised values
from index 1 on, with slack anomaly_cusum_k = 0.6 and cutoff
cusum_threshold = 6. -/
def detCusumGo : List ℚ → ℚ → ℚ → List Bool
  | [], _, _ => []
  | x :: rest, pos, neg =>
    let pos1 := max 0 (pos + x - 3/5)
    let neg1 := max 0 (neg - x - 3/5)
    (decide (6 < pos1) || decide (6 < neg1)) :: detCusumGo rest pos1 neg1

/-- _cusum_changepoints (engine/anomaly/detection.py): per-sample flags on
the normalised series; index 0 carries both accumulators at 0 and is never
flagged. -/
def detCusumFlags (arr : List ℚ) (sigma : ℚ) : List Bool :=
  if sigma = 0 then arr.map (fun _ => false)
  else
    let mu := qMean arr
    match arr.map (fun v => (v - mu) / sigma) with
    | [] => []
    | _ :: rest => false :: detCusumGo rest 0 0

/-- _severity (engine/anomaly/detection.py): tiered z and MAD scores
(anomaly_z_thresholds, anomaly_mad_thresholds), anomaly_iso_weight = 0.1,
clamped to 1 and mapped through Severity.from_score. -/
def anomalySeverity (z m : ℚ) (iso : ℤ) : Severity :=
  let zscore : ℚ :=
    if (9/2 : ℚ) ≤ |z| then 1/2
    else if (7/2 : ℚ) ≤ |z| then 7/20
    else if (3 : ℚ) ≤ |z| then 1/5
    else 0
  let mscore : ℚ :=
    if (6 : ℚ) ≤ |m| then 7/20
    else if (9/2 : ℚ) ≤ |m| then 1/4
    else if (7/2 : ℚ) ≤ |m| then 3/20
    else 0
  let iscore : ℚ := if iso = -1 then 1/10 else 0
  Severity.from_score (min (zscore + mscore + iscore) 1)

/-- _change_type (engine/anomaly/detection.py) with
anomaly_drift_slope_threshold = 0.15; value and mean are accepted but not
read, as in the source. -/
def anomalyChangeType (_value _mean z slope : ℚ) : ChangeType :=
  if (3/20 : ℚ) < |slope| then .drift
  else if 0 < z then .spike
  else if z < 0 then .drop
  else .shift

/-- One zipped sample of detect's emission loop: timestamp, value, z-score,
MAD score, CUSUM flag, isolation label and isolation score. -/
structure SampleRec where
  t : ℚ
  v : ℚ
  z : ℚ
  m : ℚ
  c : Bool
  isoL : ℤ
  isoS : ℚ
deriving DecidableEq, Repr

/-- The zip of detect's seven per-sample sequences (Python zip truncates to
the shortest). -/
def sampleRecs (ts arr z m : List ℚ) (c : List Bool) (isoL : List ℤ)
    (isoS : List ℚ) : List SampleRec :=
  ((((((ts.zip arr).zip z).zip m).zip c).zip isoL).zip isoS).map
    (fun x => ⟨x.1.1.1.1.1.1, x.1.1.1.1.1.2, x.1.1.1.1.2, x.1.1.1.2, x.1.1.2, x.1.2, x.2⟩)

/-- The emission condition of detect: the statistical flag (z, MAD or CUSUM
at full thresholds zscore_threshold = 3, mad_threshold = 4) or the
corroborated isolation-forest flag (label -1 with z or MAD at 0.7 of the
thresholds); an isolation-only flag never fires. -/
def anomalyFlag (r : SampleRec) : Bool :=
  decide ((3 ≤ |r.z| ∨ 4 ≤ |r.m| ∨ r.c = true) ∨
    (r.isoL = -1 ∧ (3 * (7/10) ≤ |r.z| ∨ 4 * (7/10) ≤ |r.m|)))

/-- The MetricAnomaly record detect builds for a flagged sample. -/
def mkMetricAnomaly (metric : String) (mean pLow pHigh slope : ℚ)
    (r : SampleRec) : MetricAnomaly :=
  { metric_name := metric
    timestamp := r.t
    value := r.v
    change_type := anomalyChangeType r.v mean r.z slope
    z_score := roundTo 3 r.z
    mad_score := roundTo 3 r.m
    isolation_score := roundTo 4 r.isoS
    expected_range := (roundTo 4 pLow, roundTo 4 pHigh)
    severity := anomalySeverity r.z r.m r.isoL }

/-- Python max(group, key=(|z|, |mad|, severity.weight)): the first element
with the lexicographically maximal key. -/
def pyMaxByStrength (g0 : MetricAnomaly) (rest : List MetricAnomaly) : MetricAnomaly :=
  rest.foldl (fun best d =>
    if (|best.z_score| < |d.z_score| ∨ (|best.z_score| = |d.z_score| ∧
         (|best.mad_score| < |d.mad_score| ∨ (|best.mad_score| = |d.mad_score| ∧
          best.severity.weight < d.severity.weight)))) then d else best) g0

/-- The uniq dict of _compress_runs: keys (timestamp, value, change_type) in
first-insertion order, each holding the last item assigned to it. -/
def uniqByKey (sel : List MetricAnomaly) : List MetricAnomaly :=
  (sel.foldl
    (fun (acc : List ((ℚ × ℚ × ChangeType) × MetricAnomaly)) item =>
      let key := (item.timestamp, item.value, item.change_type)
      if acc.any (fun p => decide (p.1 = key)) then
        acc.map (fun p => if p.1 = key then (p.1, item) else p)
      else acc ++ [(key, item)])
    []).map Prod.snd

/-- One group's compression in _compress_runs (anomaly_run_keep_max = 3):
keep the first, the strongest and the last, dedup by (timestamp, value,
change_type), rank by (timestamp, -|z|) and keep at most 3. -/
def compressGroup (group : List MetricAnomaly) : List MetricAnomaly :=
  if group.length ≤ 3 then group
  else
    match group with
    | [] => []
    | g0 :: grest =>
      let strongest := pyMaxByStrength g0 grest
      let selected := [g0, strongest, group.getLastD g0]
      let ranked := pySorted
        (fun a b => decide (a.timestamp < b.timestamp ∨
          (a.timestamp = b.timestamp ∧ |b.z_score| < |a.z_score|)))
        (uniqByKey selected)
      ranked.take 3

/-- The run-grouping loop of _compress_runs: split the time-sorted anomalies
whenever the change type differs or the gap exceeds max_gap (when max_gap is
positive). -/
def groupRunsGo (max_gap : ℚ) (prev : MetricAnomaly) (curRev : List MetricAnomaly) :
    List MetricAnomaly → List (List MetricAnomaly)
  | [] => [curRev.reverse]
  | item :: rest =>
    if item.change_type = prev.change_type ∧
        (max_gap ≤ 0 ∨ item.timestamp - prev.timestamp ≤ max_gap) then
      groupRunsGo max_gap item (item :: curRev) rest
    else
      curRev.reverse :: groupRunsGo max_gap item [item] rest

/-- The groups of consecutive same-type, temporally-close anomalies. -/
def groupRuns (max_gap : ℚ) : List MetricAnomaly → List (List MetricAnomaly)
  | [] => []
  | x :: rest => groupRunsGo max_gap x [x] rest

/-- _compress_runs (engine/anomaly/detection.py) with
anomaly_run_gap_multiplier = 2 and anomaly_run_keep_max = 3. -/
def compressRuns (anomalies : List MetricAnomaly) : List MetricAnomaly :=
  if anomalies.length ≤ 3 then anomalies
  else
    let sorted_items := pySorted (fun a b => decide (a.timestamp < b.timestamp)) anomalies
    let diffs := (sorted_items.zip sorted_items.tail).filterMap
      (fun p => if p.1.timestamp < p.2.timestamp
                then some (p.2.timestamp - p.1.timestamp) else none)
    let typical_step := if diffs = [] then 0 else qMedian diffs
    let max_gap := if 0 < typical_step then typical_step * 2 else 0
    let compressed := ((groupRuns max_gap sorted_items).map compressGroup).flatten
    pySorted (fun a b => decide (a.timestamp < b.timestamp)) compressed

/-- _apply_density_cap (engine/anomaly/detection.py) with
quality_max_anomaly_density_per_metric_per_hour = 0.75: per-metric hourly
cap ranked by severity weight, then |z|, then |mad|. -/
def applyDensityCap (anomalies : List MetricAnomaly) (ts : List ℚ) :
    List MetricAnomaly :=
  if anomalies = [] then anomalies
  else
    let window_seconds := if 2 ≤ ts.length then max 1 (qMax ts - qMin ts) else 3600
    let window_hours := max (window_seconds / 3600) (1/60)
    let keep_limit := max 1 (⌈(3/4) * window_hours⌉.toNat)
    if anomalies.length ≤ keep_limit then anomalies
    else
      let ranked := pySorted
        (fun a b => decide (b.severity.weight < a.severity.weight ∨
          (b.severity.weight = a.severity.weight ∧ (|b.z_score| < |a.z_score| ∨
           (|b.z_score| = |a.z_score| ∧ |b.mad_score| < |a.mad_score|)))))
        anomalies
      pySorted (fun a b => decide (a.timestamp < b.timestamp)) (ranked.take keep_limit)

/-- Embedding of detect (engine/anomaly/detection.py) with min_samples = 12,
anomaly_percentile_low = 2.5, anomaly_percentile_high = 97.5 and
anomaly_compress_runs = True.  The finiteness mask is the identity on ℚ, so
the two min_samples guards coincide. -/
def detect (metric : String) (timestamps vals : List ℚ) (sigma slope : ℚ)
    (isoLabels : List ℤ) (isoScores : List ℚ) : List MetricAnomaly :=
  if vals.length < 12 then []
  else
    let mean := qMean vals
    if sigma = 0 then []
    else
      let recs := sampleRecs timestamps vals
        (vals.map (fun v => (v - mean) / sigma)) (madScores vals)
        (detCusumFlags vals sigma) isoLabels isoScores
      let anomalies := (recs.filter anomalyFlag).map
        (mkMetricAnomaly metric mean (qPercentile vals (5/2))
          (qPercentile vals (195/2)) slope)
      applyDensityCap (compressRuns anomalies) timestamps

/-- A 17-sample series of zeros with a single spike (std 4/17, spike
z-score 4). -/
def spikeVals : List ℚ :=
  [0, 0, 0, 0, 0, 0, 0, 0, 0, 0, 0, 0, 0, 0, 0, 0, 1]

/-- Timestamps 0..16 for the spike series. -/
def spikeTs : List ℚ :=
  [0, 1, 2, 3, 4, 5, 6, 7, 8, 9, 10, 11, 12, 13, 14, 15, 16]

/-- Isolation labels marking every spike-series sample an inlier. -/
def spikeIsoL : List ℤ := List.replicate 17 1

/-- Isolation scores for the spike series. -/
def spikeIsoS : List ℚ := List.replicate 17 0

/-- A 32-sample zero-mean series with unit variance: 23 zeros, 7 samples at
-1, one at 3 (z = 3) and one at 4 (z = 4); the value-3 sample lies strictly
inside the (2.5, 97.5) percentile band (-1, 3.225). -/
def bandVals : List ℚ :=
  [0, 0, -1, 0, -1, 0, -1, 0, -1, 0, -1, 0, -1, 0, -1, 0,
   0, 0, 0, 0, 3, 0, 0, 0, 0, 4, 0, 0, 0, 0, 0, 0]

/-- Timestamps spanning 6200 seconds in 200-second steps, so the density cap
keeps both anomalies. -/
def bandTs : List ℚ :=
  [0, 200, 400, 600, 800, 1000, 1200, 1400, 1600, 1800, 2000, 2200, 2400,
   2600, 2800, 3000, 3200, 3400, 3600, 3800, 4000, 4200, 4400, 4600, 4800,
   5000, 5200, 5400, 5600, 5800, 6000, 6200]

/-- Isolation labels flagging only the value-3 sample (index 20) an
outlier. -/
def bandIsoL : List ℤ :=
  [1, 1, 1, 1, 1, 1, 1, 1, 1, 1, 1, 1, 1, 1, 1, 1,
   1, 1, 1, 1, -1, 1, 1, 1, 1, 1, 1, 1, 1, 1, 1, 1]

/-- Isolation scores for the band series. -/
def bandIsoS : List ℚ := List.replicate 32 0

/-- The zipped sample record of the spike (index 16) of the spike series. -/
def spikeRec : SampleRec := ⟨16, 1, 4, 0, false, 1, 0⟩

/-- The MetricAnomaly detect emits for the spike series. -/
def spikeAnomaly : MetricAnomaly :=
  ⟨"m", 16, 1, .spike, 4, 0, 0, (0, 3/5), .medium⟩

/-- The zipped sample records of the two flagged samples of the band
series (indices 20 and 25). -/
def bandRec3 : SampleRec := ⟨4000, 3, 3, 0, false, -1, 0⟩

def bandRec4 : SampleRec := ⟨5000, 4, 4, 0, false, 1, 0⟩

/-- The two MetricAnomaly records detect emits for the band series. -/
def bandAnomaly3 : MetricAnomaly :=
  ⟨"m", 4000, 3, .spike, 3, 0, 0, (-1, 129/40), .medium⟩

def bandAnomaly4 : MetricAnomaly :=
  ⟨"m", 5000, 4, .spike, 4, 0, 0, (-1, 129/40), .medium⟩


/-- A critical-severity memory-metric anomaly (the scenario of the repo test
test_generate_deduplicates_same_hypothesis_events, at critical severity so
the deterministic event score clears the display threshold). -/
def memAnomaly : MetricAnomaly :=
  ⟨"system_memory_usage_bytes", 1, 100, ChangeType.spike, 10, 5, 0, (0, 1), Severity.critical⟩

/-- First of two overlapping correlated events with identical signal
structure. -/
def memEvent1 : CorrelatedEvent := ⟨1, 2, [memAnomaly], [], [], 0, 3/5⟩

/-- Second of two overlapping correlated events with identical signal
structure. -/
def memEvent2 : CorrelatedEvent := ⟨3/2, 5/2, [memAnomaly], [], [], 0, 3/5⟩

/-- A rational stand-in for log1p satisfying the constraints the C9 theorem
places on it (log1p 0 = 0 and ln 2 / ln 201 ∈ [1/10, 1]). -/
def logStub : ℕ → ℚ := fun n => if n = 0 then 0 else if n = 1 then 13/100 else 1

/-! ## Analyzer density quality gate
(engine/analyzer.py _apply_precision_quality_gates, metric-anomaly density
stage, lines 400-438)

The profile (settings.quality_gating_profile, default precision_strict_v1)
is a parameter; quality_max_anomaly_density_per_metric_per_hour is its
default 0.75, so the max_density > 0 guard passes.  The remainder of the
source function only gates root causes and never touches metric_anomalies
or the density_suppressed_metric_anomalies key again.  defaultdict grouping
is key-insertion order with each group in original order. -/

/-- str(getattr(item, "metric_name", "metric")).strip() or "metric". -/
def normMetric (s : String) : String :=
  if pyStrip s = "" then "metric" else pyStrip s

/-- dict[str, int] lookup with default: suppression_counts.get(k, d). -/
def lookupCount (c : List (String × ℕ)) (k : String) (d : ℕ) : ℕ :=
  match c.find? (fun p => p.1 = k) with
  | some p => p.2
  | none => d

/-- dict[str, int] assignment suppression_counts[k] = v. -/
def setCount : List (String × ℕ) → String → ℕ → List (String × ℕ)
  | [], k, v => [(k, v)]
  | p :: rest, k, v =>
    if p.1 = k then (p.1, v) :: rest else p :: setCount rest k v

/-- The density ranking: severity weight, then |z|, then |MAD|, then
timestamp, descending.  sorted(..., reverse=True) is stable, so a precedes b
exactly when a's key is strictly greater. -/
def densityGt (a b : MetricAnomaly) : Bool :=
  decide (b.severity.weight < a.severity.weight ∨
    (b.severity.weight = a.severity.weight ∧ (|b.z_score| < |a.z_score| ∨
      (|b.z_score| = |a.z_score| ∧ (|b.mad_score| < |a.mad_score| ∨
        (|b.mad_score| = |a.mad_score| ∧ b.timestamp < a.timestamp))))))

/-- One metric's group after the cap: kept whole when at most
keep_per_metric items, else the top keep_per_metric of the ranking. -/
def densityKeep (keep : ℕ) (items : List MetricAnomaly) : List MetricAnomaly :=
  if items.length ≤ keep then items else (pySorted densityGt items).take keep

/-- Python string < : lexicographic comparison of code points. -/
def charsLt : List Char → List Char → Bool
  | [], [] => false
  | [], _ :: _ => true
  | _ :: _, [] => false
  | c :: cs, d :: ds =>
    if c.val < d.val then true
    else if d.val < c.val then false
    else charsLt cs ds

/-- The final resort of the gate: (timestamp, metric_name) ascending. -/
def gateOutLt (a b : MetricAnomaly) : Bool :=
  decide (a.timestamp < b.timestamp) ||
    (decide (a.timestamp = b.timestamp) &&
      charsLt a.metric_name.data b.metric_name.data)

/-- The metric-anomaly density stage of _apply_precision_quality_gates:
returns the gated anomalies, the updated suppression counts and the updated
warnings. -/
def applyPrecisionDensityGate (profile : String)
    (metric_anomalies : List MetricAnomaly) (duration_seconds : ℚ)
    (suppression_counts : List (String × ℕ)) (warnings : List String) :
    List MetricAnomaly × List (String × ℕ) × List String :=
  let hours := max (duration_seconds / 3600) (1/60)
  if isPrecisionProfile profile = true ∧ metric_anomalies ≠ [] then
    let keep_per_metric := max 1 (⌈(3/4 : ℚ) * hours⌉.toNat)
    let keys := dedupKeepFirst
      (metric_anomalies.map (fun a => normMetric a.metric_name))
    let groups := keys.map
      (fun k => metric_anomalies.filter (fun a => normMetric a.metric_name = k))
    let filtered := (groups.map (densityKeep keep_per_metric)).flatten
    let suppressed := (groups.map (fun g =>
      if g.length ≤ keep_per_metric then 0 else g.length - keep_per_metric)).sum
    let out := pySorted gateOutLt filtered
    if 0 < suppressed then
      (out,
       setCount suppression_counts "density_suppressed_metric_anomalies"
         (lookupCount suppression_counts
           "density_suppressed_metric_anomalies" 0 + suppressed),
       warnings ++ ["Quality gate suppressed " ++ Nat.repr suppressed ++
         " metric anomaly(ies) above density cap 0.75/metric/hour."])
    else (out, suppression_counts, warnings)
  else (metric_anomalies, suppression_counts, warnings)

/-! ## Theorems -/

/-- Helper: _normalize on a three-entry dict with nonzero total. -/
theorem normalizeW_three (n1 n2 n3 : String) (x y z : ℚ) (h : ¬ (x + y + z = 0)) :
    normalizeW [(n1, x), (n2, y), (n3, z)]
      = [(n1, x / (x + y + z)), (n2, y / (x + y + z)), (n3, z / (x + y + z))] := by
  have e : x + (y + (z + 0)) = x + y + z := by ring
  simp only [normalizeW, sumValues, qSum, List.map_cons, List.map_nil,
    List.foldr_cons, List.foldr_nil, e, if_neg h]

/-- Helper: one update keeps the three-core-signal shape, nonnegativity and
unit total. -/
theorem updateW_shape (a b c : ℚ) (ha : 0 ≤ a) (hb : 0 ≤ b) (hc : 0 ≤ c)
    (hsum : a + b + c = 1) (k : String) (hk : k ∈ coreSignals) (r : Bool) :
    ∃ a2 b2 c2 : ℚ,
      updateW [("metrics", a), ("logs", b), ("traces", c)] k r
        = [("metrics", a2), ("logs", b2), ("traces", c2)] ∧
      0 ≤ a2 ∧ 0 ≤ b2 ∧ 0 ≤ c2 ∧ a2 + b2 + c2 = 1 := by
  set ρ : ℚ := if r then (1 : ℚ) else 0 with hρdef
  have hρ0 : 0 ≤ ρ := by
    rw [hρdef]; split <;> norm_num
  simp only [coreSignals, List.mem_cons, List.mem_singleton,
    List.not_mem_nil, or_false] at hk
  rcases hk with hk | hk | hk
  · subst hk
    set v : ℚ := (1 - 1/5) * a + (1/5) * ρ with hvdef
    have hv0 : 0 ≤ v := by rw [hvdef]; positivity
    have htpos : (0 : ℚ) < v + b + c := by
      have ha1 : a ≤ 1 := by linarith
      rw [hvdef]; linarith
    have htne : ¬ (v + b + c = 0) := ne_of_gt htpos
    have hstep : updateW [("metrics", a), ("logs", b), ("traces", c)] "metrics" r
        = normalizeW [("metrics", v), ("logs", b), ("traces", c)] := by
      simp [updateW, lookupD, setKey, List.find?, hvdef, hρdef]
    rw [hstep, normalizeW_three _ _ _ _ _ _ htne]
    refine ⟨_, _, _, rfl, ?_, ?_, ?_, ?_⟩
    · positivity
    · positivity
    · positivity
    · field_simp
  · subst hk
    set v : ℚ := (1 - 1/5) * b + (1/5) * ρ with hvdef
    have hv0 : 0 ≤ v := by rw [hvdef]; positivity
    have htpos : (0 : ℚ) < a + v + c := by
      have hb1 : b ≤ 1 := by linarith
      rw [hvdef]; linarith
    have htne : ¬ (a + v + c = 0) := ne_of_gt htpos
    have hstep : updateW [("metrics", a), ("logs", b), ("traces", c)] "logs" r
        = normalizeW [("metrics", a), ("logs", v), ("traces", c)] := by
      simp [updateW, lookupD, setKey, List.find?, hvdef, hρdef]
    rw [hstep, normalizeW_three _ _ _ _ _ _ htne]
    refine ⟨_, _, _, rfl, ?_, ?_, ?_, ?_⟩
    · positivity
    · positivity
    · positivity
    · field_simp
  · subst hk
    set v : ℚ := (1 - 1/5) * c + (1/5) * ρ with hvdef
    have hv0 : 0 ≤ v := by rw [hvdef]; positivity
    have htpos : (0 : ℚ) < a + b + v := by
      have hc1 : c ≤ 1 := by linarith
      rw [hvdef]; linarith
    have htne : ¬ (a + b + v = 0) := ne_of_gt htpos
    have hstep : updateW [("metrics", a), ("logs", b), ("traces", c)] "traces" r
        = normalizeW [("metrics", a), ("logs", b), ("traces", v)] := by
      simp [updateW, lookupD, setKey, List.find?, hvdef, hρdef]
    rw [hstep, normalizeW_three _ _ _ _ _ _ htne]
    refine ⟨_, _, _, rfl, ?_, ?_, ?_, ?_⟩
    · positivity
    · positivity
    · positivity
    · field_simp

/-- Helper: the shape invariant survives any core-signal update sequence. -/
theorem applyUpdates_shape (us : List (String × Bool)) :
    ∀ a b c : ℚ, 0 ≤ a → 0 ≤ b → 0 ≤ c → a + b + c = 1 →
    (∀ u ∈ us, u.1 ∈ coreSignals) →
    ∃ a2 b2 c2 : ℚ,
      applyUpdates [("metrics", a), ("logs", b), ("traces", c)] us
        = [("metrics", a2), ("logs", b2), ("traces", c2)] ∧
      0 ≤ a2 ∧ 0 ≤ b2 ∧ 0 ≤ c2 ∧ a2 + b2 + c2 = 1 := by
  induction us with
  | nil =>
    intro a b c ha hb hc hsum _
    exact ⟨a, b, c, rfl, ha, hb, hc, hsum⟩
  | cons u rest ih =>
    intro a b c ha hb hc hsum hmem
    obtain ⟨a1, b1, c1, he, ha1, hb1, hc1, hs1⟩ :=
      updateW_shape a b c ha hb hc hsum u.1 (hmem u (List.mem_cons_self u rest)) u.2
    have : applyUpdates [("metrics", a), ("logs", b), ("traces", c)] (u :: rest)
        = applyUpdates [("metrics", a1), ("logs", b1), ("traces", c1)] rest := by
      simp only [applyUpdates, List.foldl_cons, he]
    rw [this]
    exact ih a1 b1 c1 ha1 hb1 hc1 hs1 (fun v hv => hmem v (List.mem_cons_of_mem u hv))

/-- Helper: Python round is the identity on values exactly representable at
the target precision. -/
theorem roundTo_eq_self (n : ℕ) (x : ℚ) (m : ℤ)
    (h : x * ((10 ^ n : ℕ) : ℚ) = (m : ℚ)) : roundTo n x = x := by
  have h10 : (((10 : ℕ) ^ n : ℕ) : ℚ) ≠ 0 := by positivity
  simp only [roundTo, h, Int.floor_intCast, sub_self]
  rw [if_pos (by norm_num : (0 : ℚ) < 1/2)]
  rw [div_eq_iff h10]
  exact h.symm

/-- Helper: stable insertion permutes to consing. -/
theorem insBefore_perm {α : Type} (lt : α → α → Bool) (x : α) (l : List α) :
    (insBefore lt x l).Perm (x :: l) := by
  induction l with
  | nil => simp [insBefore]
  | cons y ys ih =>
    simp only [insBefore]
    split
    · exact (ih.cons y).trans (List.Perm.swap x y ys)
    · exact List.Perm.refl _

/-- Helper: the stable sort is a permutation. -/
theorem pySorted_perm {α : Type} (lt : α → α → Bool) (l : List α) :
    (pySorted lt l).Perm l := by
  induction l with
  | nil => exact List.Perm.refl _
  | cons x xs ih =>
    exact (insBefore_perm lt x (pySorted lt xs)).trans (ih.cons x)

/-- Helper: membership is preserved by the stable sort. -/
theorem mem_pySorted {α : Type} (lt : α → α → Bool) (l : List α) (e : α) :
    e ∈ pySorted lt l ↔ e ∈ l :=
  (pySorted_perm lt l).mem_iff

/-- Helper: the per-signal clamps and the 3-digit rounding in correlate's
confidence computation collapse to the spec's single clamped sum, which lies
in [0, 1]. -/
theorem confidence_formula (a b c : ℕ) :
    roundTo 3 (min 1 (min 1 ((a : ℚ) * (3/10)) + min 1 ((b : ℚ) * (7/20)) +
        min (7/20) ((c : ℚ) * (7/20))))
      = min 1 ((a : ℚ) * (3/10) + (b : ℚ) * (7/20) + min (7/20) ((c : ℚ) * (7/20))) ∧
    0 ≤ min 1 ((a : ℚ) * (3/10) + (b : ℚ) * (7/20) + min (7/20) ((c : ℚ) * (7/20))) ∧
    min 1 ((a : ℚ) * (3/10) + (b : ℚ) * (7/20) + min (7/20) ((c : ℚ) * (7/20))) ≤ 1 := by
  have hx0 : (0 : ℚ) ≤ (a : ℚ) * (3/10) := by positivity
  have hy0 : (0 : ℚ) ≤ (b : ℚ) * (7/20) := by positivity
  have hz0 : (0 : ℚ) ≤ min (7/20) ((c : ℚ) * (7/20)) :=
    le_min (by norm_num) (by positivity)
  have hz1 : min (7/20) ((c : ℚ) * (7/20)) ≤ 1 :=
    le_trans (min_le_left _ _) (by norm_num)
  have hzint : ∃ k : ℤ, min (7/20) ((c : ℚ) * (7/20)) * 1000 = (k : ℚ) := by
    rcases Nat.eq_zero_or_pos c with hc | hc
    · subst hc
      refine ⟨0, ?_⟩
      norm_num
    · have hcq : (7 : ℚ)/20 ≤ (c : ℚ) * (7/20) := by
        have : (1 : ℚ) ≤ (c : ℚ) := by exact_mod_cast hc
        nlinarith
      rw [min_eq_left hcq]
      exact ⟨350, by norm_num⟩
  refine ⟨?_, le_min (by norm_num) (by positivity), min_le_left _ _⟩
  by_cases hx : (a : ℚ) * (3/10) ≤ 1
  · by_cases hy : (b : ℚ) * (7/20) ≤ 1
    · rw [min_eq_right hx, min_eq_right hy]
      obtain ⟨k, hk⟩ := hzint
      by_cases hs : (a : ℚ) * (3/10) + (b : ℚ) * (7/20) + min (7/20) ((c : ℚ) * (7/20)) ≤ 1
      · rw [min_eq_right hs]
        refine roundTo_eq_self 3 _ (300 * a + 350 * b + k) ?_
        push_cast
        push_cast at hk
        nlinarith [hk]
      · rw [min_eq_left (le_of_not_le hs)]
        exact roundTo_eq_self 3 1 1000 (by norm_num)
    · have hy1 : (1 : ℚ) ≤ (b : ℚ) * (7/20) := le_of_not_le hy
      rw [min_eq_left hy1]
      have hsum1 : (1 : ℚ) ≤ (a : ℚ) * (3/10) + (b : ℚ) * (7/20) +
          min (7/20) ((c : ℚ) * (7/20)) := by nlinarith
      rw [min_eq_left hsum1]
      have hinner : (1 : ℚ) ≤ min 1 ((a : ℚ) * (3/10)) + 1 +
          min (7/20) ((c : ℚ) * (7/20)) := by
        have : (0 : ℚ) ≤ min 1 ((a : ℚ) * (3/10)) := le_min (by norm_num) hx0
        nlinarith
      rw [min_eq_left hinner]
      exact roundTo_eq_self 3 1 1000 (by norm_num)
  · have hx1 : (1 : ℚ) ≤ (a : ℚ) * (3/10) := le_of_not_le hx
    rw [min_eq_left hx1]
    have hsum1 : (1 : ℚ) ≤ (a : ℚ) * (3/10) + (b : ℚ) * (7/20) +
        min (7/20) ((c : ℚ) * (7/20)) := by nlinarith
    rw [min_eq_left hsum1]
    have hinner : (1 : ℚ) ≤ 1 + min 1 ((b : ℚ) * (7/20)) +
        min (7/20) ((c : ℚ) * (7/20)) := by
      have : (0 : ℚ) ≤ min 1 ((b : ℚ) * (7/20)) := le_min (by norm_num) hy0
      nlinarith
    rw [min_eq_left hinner]
    exact roundTo_eq_self 3 1 1000 (by norm_num)

/-- Helper: every event emitted by correlate's anchored loop satisfies the
CorrelatedEvent invariants. -/
theorem correlateGo_mem (mt : String → List String) (bt : LogBurst → List String)
    (ns : String → String) (ma : List MetricAnomaly) (lb : List LogBurst)
    (sl : List ServiceLatency) (w : ℚ) (allA : List ℚ) :
    ∀ anchors used, ∀ e ∈ correlateGo mt bt ns ma lb sl w allA anchors used,
      e.signal_count = e.metric_anomalies.length + e.log_bursts.length +
        e.service_latency.length ∧
      2 ≤ e.signal_count ∧
      e.confidence = min 1 ((e.metric_anomalies.length : ℚ) * (3/10) +
        (e.log_bursts.length : ℚ) * (7/20) +
        min (7/20) ((e.service_latency.length : ℚ) * (7/20))) ∧
      0 ≤ e.confidence ∧ e.confidence ≤ 1 := by
  intro anchors
  induction anchors with
  | nil => intro used e he; simp [correlateGo] at he
  | cons anchor rest ih =>
    intro used e he
    simp only [correlateGo] at he
    by_cases h1 : anchor ∈ used
    · rw [if_pos h1] at he
      exact ih used e he
    · rw [if_neg h1] at he
      split at he
      · exact ih used e he
      · rename_i h2
        rcases List.mem_cons.mp he with rfl | he
        · obtain ⟨hcf, hc0, hc1⟩ :=
            confidence_formula
              (ma.filter (fun a => decide ((anchor - w) ≤ a.timestamp) &&
                decide (a.timestamp ≤ (anchor + w)))).length
              (lb.filter (fun b => decide (overlapW (anchor - w) (anchor + w)
                b.window_start b.window_end))).length
              (sl.filter (latencyKeep ns
                ((((ma.filter (fun a => decide ((anchor - w) ≤ a.timestamp) &&
                    decide (a.timestamp ≤ (anchor + w)))).map
                      (fun a => mt a.metric_name)).flatten) ++
                 (((lb.filter (fun b => decide (overlapW (anchor - w) (anchor + w)
                    b.window_start b.window_end))).map bt).flatten))
                (anchor - w) (anchor + w))).length
          refine ⟨rfl, not_lt.mp h2, ?_, ?_, ?_⟩
          · exact hcf
          · rw [show (CorrelatedEvent.confidence _) = _ from hcf]
            exact hc0
          · rw [show (CorrelatedEvent.confidence _) = _ from hcf]
            exact hc1
        · exact ih _ e he

/-- C1: every CorrelatedEvent emitted by correlate has signal_count equal to
the number of included metric anomalies plus log bursts plus service-latency
rows and at least 2, and confidence equal to
min(1, w_t·|ma| + w_l·|lb| + min(errors_cap, w_e·|sl|)), which lies in [0,1];
this holds for any positive window and any service-token extraction. -/
theorem C1_correlate_event_invariants (mt : String → List String)
    (bt : LogBurst → List String) (ns : String → String)
    (ma : List MetricAnomaly) (lb : List LogBurst) (sl : List ServiceLatency)
    (w : ℚ) (hw : 0 < w) :
    ∀ e ∈ correlate mt bt ns ma lb sl w,
      e.signal_count = e.metric_anomalies.length + e.log_bursts.length +
        e.service_latency.length ∧
      2 ≤ e.signal_count ∧
      e.confidence = min 1 ((e.metric_anomalies.length : ℚ) * (3/10) +
        (e.log_bursts.length : ℚ) * (7/20) +
        min (7/20) ((e.service_latency.length : ℚ) * (7/20))) ∧
      0 ≤ e.confidence ∧ e.confidence ≤ 1 := by
  intro e he
  simp only [correlate] at he
  split at he
  · simp at he
  · rw [mem_pySorted] at he
    exact correlateGo_mem mt bt ns ma lb sl w _ _ _ e he

/-- Helper: a fold that at each step keeps either the accumulator or the
item ends on the seed or a member. -/
theorem foldl_ite_mem {α : Type} (p : α → α → Prop) [inst : ∀ a b, Decidable (p a b)] :
    ∀ (l : List α) (g0 : α),
      l.foldl (fun best d => if p best d then d else best) g0 ∈ g0 :: l := by
  intro l
  induction l with
  | nil => intro g0; simp
  | cons d ds ih =>
    intro g0
    simp only [List.foldl_cons]
    rcases List.mem_cons.mp (ih (if p g0 d then d else g0)) with h | h
    · rw [h]
      split
      · exact List.mem_cons_of_mem _ (List.mem_cons_self _ _)
      · exact List.mem_cons_self _ _
    · exact List.mem_cons_of_mem _ (List.mem_cons_of_mem _ h)

/-- Helper: Python max over a group returns a member. -/
theorem pyMaxByStrength_mem (rest : List MetricAnomaly) (g0 : MetricAnomaly) :
    pyMaxByStrength g0 rest ∈ g0 :: rest := by
  unfold pyMaxByStrength
  exact foldl_ite_mem _ rest g0

/-- Helper: every value of the uniq fold comes from the processed items or
the accumulator. -/
theorem uniq_fold_mem (P : MetricAnomaly → Prop) :
    ∀ (l : List MetricAnomaly) (acc : List ((ℚ × ℚ × ChangeType) × MetricAnomaly)),
    (∀ p ∈ acc, P p.2) → (∀ x ∈ l, P x) →
    ∀ p ∈ l.foldl
      (fun acc item =>
        let key := (item.timestamp, item.value, item.change_type)
        if acc.any (fun p => decide (p.1 = key)) then
          acc.map (fun p => if p.1 = key then (p.1, item) else p)
        else acc ++ [(key, item)]) acc, P p.2 := by
  intro l
  induction l with
  | nil => intro acc hacc _ p hp; exact hacc p hp
  | cons item rest ih =>
    intro acc hacc hl p hp
    simp only [List.foldl_cons] at hp
    have hitem : P item := hl item (List.mem_cons_self _ _)
    have hrest : ∀ x ∈ rest, P x := fun x hx => hl x (List.mem_cons_of_mem _ hx)
    refine ih _ ?_ hrest p hp
    intro q hq
    split at hq
    · rcases List.mem_map.mp hq with ⟨q0, hq0, hq0e⟩
      by_cases hk : q0.1 = (item.timestamp, item.value, item.change_type)
      · rw [if_pos hk] at hq0e
        rw [← hq0e]
        exact hitem
      · rw [if_neg hk] at hq0e
        rw [← hq0e]
        exact hacc q0 hq0
    · rcases List.mem_append.mp hq with hq | hq
      · exact hacc q hq
      · rcases List.mem_singleton.mp hq with rfl
        exact hitem

/-- Helper: uniqByKey returns only members of its input. -/
theorem uniqByKey_subset (sel : List MetricAnomaly) (a : MetricAnomaly)
    (ha : a ∈ uniqByKey sel) : a ∈ sel := by
  simp only [uniqByKey] at ha
  rcases List.mem_map.mp ha with ⟨p, hp, hpe⟩
  have := uniq_fold_mem (fun x => x ∈ sel) sel [] (by intro q hq; simp at hq)
    (fun x hx => hx) p hp
  rw [hpe] at this
  exact this

/-- Helper: the last element with default of a nonempty list is a member. -/
theorem getLastD_cons_mem (g0 : MetricAnomaly) (rest : List MetricAnomaly) :
    (g0 :: rest).getLastD g0 ∈ g0 :: rest := by
  induction rest generalizing g0 with
  | nil => simp
  | cons d ds ih =>
    have h : (g0 :: d :: ds).getLastD g0 = (d :: ds).getLastD d := by
      rw [List.getLastD_cons]
      obtain ⟨y, hy⟩ : ∃ y, (d :: ds).getLast? = some y :=
        ⟨(d :: ds).getLast (by simp), List.getLast?_eq_getLast _ _⟩
      simp [List.getLastD_eq_getLast?, hy]
    rw [h]
    exact List.mem_cons_of_mem _ (ih d)

/-- Helper: group compression returns only members of the group. -/
theorem compressGroup_subset (g : List MetricAnomaly) (a : MetricAnomaly)
    (ha : a ∈ compressGroup g) : a ∈ g := by
  simp only [compressGroup] at ha
  split at ha
  · exact ha
  · match g, ha with
    | g0 :: grest, ha =>
      have h1 : a ∈ uniqByKey [g0, pyMaxByStrength g0 grest,
          (g0 :: grest).getLastD g0] :=
        (mem_pySorted _ _ a).mp (List.take_subset 3 _ ha)
      have h2 := uniqByKey_subset _ a h1
      rcases List.mem_cons.mp h2 with rfl | h2
      · exact List.mem_cons_self _ _
      rcases List.mem_cons.mp h2 with h3 | h2
      · rw [h3]; exact pyMaxByStrength_mem grest g0
      rcases List.mem_singleton.mp h2 with rfl
      exact getLastD_cons_mem g0 grest

/-- Helper: every element of every run group comes from the carried group or
the remaining items. -/
theorem groupRunsGo_mem (mg : ℚ) :
    ∀ (l : List MetricAnomaly) (prev : MetricAnomaly) (curRev : List MetricAnomaly),
    ∀ g ∈ groupRunsGo mg prev curRev l, ∀ a ∈ g, a ∈ curRev ∨ a ∈ l := by
  intro l
  induction l with
  | nil =>
    intro prev curRev g hg a hag
    rcases List.mem_singleton.mp hg with rfl
    exact Or.inl (List.mem_reverse.mp hag)
  | cons item rest ih =>
    intro prev curRev g hg a hag
    simp only [groupRunsGo] at hg
    split at hg
    · rcases ih item (item :: curRev) g hg a hag with h | h
      · rcases List.mem_cons.mp h with rfl | h
        · exact Or.inr (List.mem_cons_self _ _)
        · exact Or.inl h
      · exact Or.inr (List.mem_cons_of_mem _ h)
    · rcases List.mem_cons.mp hg with rfl | hg
      · exact Or.inl (List.mem_reverse.mp hag)
      · rcases ih item [item] g hg a hag with h | h
        · rcases List.mem_singleton.mp h with rfl
          exact Or.inr (List.mem_cons_self _ _)
        · exact Or.inr (List.mem_cons_of_mem _ h)

/-- Helper: run compression returns only members of its input. -/
theorem compressRuns_subset (l : List MetricAnomaly) (a : MetricAnomaly)
    (ha : a ∈ compressRuns l) : a ∈ l := by
  simp only [compressRuns] at ha
  split at ha
  · exact ha
  · rw [mem_pySorted] at ha
    rcases List.mem_flatten.mp ha with ⟨gl, hgl, hagl⟩
    rcases List.mem_map.mp hgl with ⟨g, hg, rfl⟩
    have hag := compressGroup_subset g a hagl
    have hmem : a ∈ pySorted (fun a b => decide (a.timestamp < b.timestamp)) l := by
      rcases hcase : pySorted (fun a b => decide (a.timestamp < b.timestamp)) l with
        _ | ⟨x, rest⟩
      · rw [hcase] at hg; simp [groupRuns] at hg
      · rw [hcase] at hg
        simp only [groupRuns] at hg
        rcases groupRunsGo_mem _ rest x [x] g hg a hag with h | h
        · rcases List.mem_singleton.mp h with rfl
          rw [hcase]; exact List.mem_cons_self _ _
        · rw [hcase]; exact List.mem_cons_of_mem _ h
    exact (mem_pySorted _ _ _).mp hmem

/-- Helper: the density cap returns only members of its input. -/
theorem applyDensityCap_subset (l : List MetricAnomaly) (ts : List ℚ)
    (a : MetricAnomaly) (ha : a ∈ applyDensityCap l ts) : a ∈ l := by
  simp only [applyDensityCap] at ha
  split at ha
  · exact ha
  · split at ha
    · split at ha
      · exact ha
      · rw [mem_pySorted] at ha
        exact (mem_pySorted _ _ _).mp (List.take_subset _ _ ha)
    · split at ha
      · exact ha
      · rw [mem_pySorted] at ha
        exact (mem_pySorted _ _ _).mp (List.take_subset _ _ ha)

/-- Helper: every anomaly detect emits comes from a flagged zipped sample. -/
theorem detect_mem_flagged (metric : String) (ts vals : List ℚ)
    (sigma slope : ℚ) (isoL : List ℤ) (isoS : List ℚ) :
    ∀ a ∈ detect metric ts vals sigma slope isoL isoS,
      ∃ r ∈ sampleRecs ts vals
          (vals.map (fun v => (v - qMean vals) / sigma)) (madScores vals)
          (detCusumFlags vals sigma) isoL isoS,
        a = mkMetricAnomaly metric (qMean vals) (qPercentile vals (5/2))
              (qPercentile vals (195/2)) slope r ∧
        anomalyFlag r = true := by
  intro a ha
  simp only [detect] at ha
  split at ha
  · simp at ha
  · split at ha
    · simp at ha
    · have h1 := applyDensityCap_subset _ _ a ha
      have h2 := compressRuns_subset _ a h1
      rcases List.mem_map.mp h2 with ⟨r, hr, rfl⟩
      rcases List.mem_filter.mp hr with ⟨hrmem, hrflag⟩
      exact ⟨r, hrmem, rfl, hrflag⟩


/-- Helper: Python round moves a value by at most one unit in the last
digit, downward bound. -/
theorem roundTo_ge (n : ℕ) (x : ℚ) :
    x - 1 / ((10 ^ n : ℕ) : ℚ) ≤ roundTo n x := by
  have hpow : (0:ℚ) < (((10:ℕ) ^ n : ℕ) : ℚ) := by positivity
  simp only [roundTo]
  have hf2 : x * (((10:ℕ) ^ n : ℕ) : ℚ) - 1 < (⌊x * (((10:ℕ) ^ n : ℕ) : ℚ)⌋ : ℚ) :=
    Int.sub_one_lt_floor _
  have key : ∀ r : ℚ, ((⌊x * (((10:ℕ) ^ n : ℕ) : ℚ)⌋ : ℚ) ≤ r) →
      x - 1 / (((10:ℕ) ^ n : ℕ) : ℚ) ≤ r / (((10:ℕ) ^ n : ℕ) : ℚ) := by
    intro r hr
    rw [le_div_iff₀ hpow, sub_mul, div_mul_cancel₀ _ (ne_of_gt hpow)]
    linarith
  split_ifs
  · exact key _ le_rfl
  · exact key _ (by push_cast; linarith)
  · exact key _ le_rfl
  · exact key _ (by push_cast; linarith)

/-- Helper: Python round moves a value by at most one unit in the last
digit, upward bound. -/
theorem roundTo_le (n : ℕ) (x : ℚ) :
    roundTo n x ≤ x + 1 / ((10 ^ n : ℕ) : ℚ) := by
  have hpow : (0:ℚ) < (((10:ℕ) ^ n : ℕ) : ℚ) := by positivity
  simp only [roundTo]
  have hf1 : (⌊x * (((10:ℕ) ^ n : ℕ) : ℚ)⌋ : ℚ) ≤ x * (((10:ℕ) ^ n : ℕ) : ℚ) :=
    Int.floor_le _
  have key : ∀ r : ℚ, (r ≤ (⌊x * (((10:ℕ) ^ n : ℕ) : ℚ)⌋ : ℚ) + 1) →
      r / (((10:ℕ) ^ n : ℕ) : ℚ) ≤ x + 1 / (((10:ℕ) ^ n : ℕ) : ℚ) := by
    intro r hr
    rw [div_le_iff₀ hpow, add_mul, div_mul_cancel₀ _ (ne_of_gt hpow)]
    linarith
  split_ifs
  · exact key _ (by linarith)
  · exact key _ (by push_cast; linarith)
  · exact key _ (by linarith)
  · exact key _ (by push_cast; linarith)

/-- Helper: Python round lands on a value exactly representable at the
target precision. -/
theorem roundTo_exact (n : ℕ) (x : ℚ) :
    ∃ m : ℤ, roundTo n x * ((10 ^ n : ℕ) : ℚ) = (m : ℚ) := by
  have hpow : (((10:ℕ) ^ n : ℕ) : ℚ) ≠ 0 := by positivity
  simp only [roundTo]
  split_ifs
  · exact ⟨⌊x * (((10:ℕ) ^ n : ℕ) : ℚ)⌋, by rw [div_mul_cancel₀ _ hpow]⟩
  · exact ⟨⌊x * (((10:ℕ) ^ n : ℕ) : ℚ)⌋ + 1, by rw [div_mul_cancel₀ _ hpow]⟩
  · exact ⟨⌊x * (((10:ℕ) ^ n : ℕ) : ℚ)⌋, by rw [div_mul_cancel₀ _ hpow]⟩
  · exact ⟨⌊x * (((10:ℕ) ^ n : ℕ) : ℚ)⌋ + 1, by rw [div_mul_cancel₀ _ hpow]⟩

/-- Helper: the deterministic event score of the first memory event in
closed form over the log1p ratio. -/
theorem memScore_eq (logF : ℕ → ℚ) (hz : logF 0 = 0)
    (hr2 : logF 1 / logF 200 ≤ 1) :
    score_correlated_event logF memEvent1 =
      roundTo 3 ((44/125) * (logF 1 / logF 200) + 1/10) := by
  simp only [score_correlated_event, memEvent1, memAnomaly, maxSevWeight]
  norm_num [Severity.weight, hz, min_self, min_eq_right hr2,
    show (1:ℚ) ⊓ 0 = 0 from by norm_num [min_def]]
  rw [min_eq_right (by linarith)]
  ring_nf

/-- Helper: the event score reads nothing but the signal lists and the
confidence, which the two events share. -/
theorem memScore_eq2 (logF : ℕ → ℚ) :
    score_correlated_event logF memEvent2 = score_correlated_event logF memEvent1 := rfl

/-- Helper: bounds on the deterministic event score of the memory events,
for any log1p with ln 2 / ln 201 within [1/10, 1]. -/
theorem memScore_bounds (logF : ℕ → ℚ) (hz : logF 0 = 0)
    (hr1 : 1/10 ≤ logF 1 / logF 200) (hr2 : logF 1 / logF 200 ≤ 1) :
    3/25 ≤ score_correlated_event logF memEvent1 ∧
    score_correlated_event logF memEvent1 ≤ 99/100 := by
  rw [memScore_eq logF hz hr2]
  have hq : (((10:ℕ) ^ 3 : ℕ) : ℚ) = 1000 := by norm_num
  have hlo := roundTo_ge 3 ((44/125) * (logF 1 / logF 200) + 1/10)
  have hhi := roundTo_le 3 ((44/125) * (logF 1 / logF 200) + 1/10)
  rw [hq] at hlo hhi
  constructor
  · linarith
  · linarith

/-- Helper: the per-event confidence equals the event score: the deployment
term is 0 with no deployments, the 0.99 cap does not bind, and re-rounding a
3-rounded value is the identity. -/
theorem memConf_round (logF : ℕ → ℚ) (hz : logF 0 = 0)
    (hr1 : 1/10 ≤ logF 1 / logF 200) (hr2 : logF 1 / logF 200 ≤ 1) :
    roundTo 3 (min (99/100) (score_correlated_event logF memEvent1)) =
      score_correlated_event logF memEvent1 := by
  have hub := (memScore_bounds logF hz hr1 hr2).2
  rw [min_eq_right hub]
  obtain ⟨m, hm⟩ := roundTo_exact 3 ((44/125) * (logF 1 / logF 200) + 1/10)
  rw [← memScore_eq logF hz hr2] at hm
  exact roundTo_eq_self 3 _ m hm

/-- Helper: the RootCause generate builds for the first memory event. -/
theorem memCause_eq (logF : ℕ → ℚ) (setList : List String → List String)
    (hz : logF 0 = 0) (hr1 : 1/10 ≤ logF 1 / logF 200)
    (hr2 : logF 1 / logF 200 ≤ 1)
    (hset : setList ["system_memory_usage_bytes"] = ["system_memory_usage_bytes"])
    (hnil : setList [] = []) :
    eventCause logF setList none [] memEvent1 = some
      { hypothesis := "[resource_exhaustion] Correlated incident: metric anomaly in system_memory_usage_bytes"
        confidence := score_correlated_event logF memEvent1
        severity := Severity.from_score (score_correlated_event logF memEvent1)
        category := .resource_exhaustion
        evidence := ["metrics=1", "log_bursts=0", "latency_services=0"]
        contributing_signals := ["metric:system_memory_usage_bytes"]
        affected_services := []
        recommended_action := "Check resource limits, scale horizontally or increase quotas."
        deployment := none } := by
  norm_num +decide [eventCause, categorize, score_deployment_correlation,
    signalsFromEvent, dedupKeepFirst, actionForCategory, pyMinBy, pyJoin,
    RcaCategory.value, hset, hnil, qMin,
    memConf_round logF hz hr1 hr2,
    show memEvent1.confidence = 3/5 from rfl,
    show memEvent1.window_start = 1 from rfl,
    show memEvent1.service_latency = [] from rfl,
    show memEvent1.log_bursts = [] from rfl,
    show memEvent1.metric_anomalies = [memAnomaly] from rfl,
    show memAnomaly.metric_name = "system_memory_usage_bytes" from rfl]

/-- Helper: the RootCause generate builds for the second memory event is
identical, its score included. -/
theorem memCause_eq2 (logF : ℕ → ℚ) (setList : List String → List String)
    (hz : logF 0 = 0) (hr1 : 1/10 ≤ logF 1 / logF 200)
    (hr2 : logF 1 / logF 200 ≤ 1)
    (hset : setList ["system_memory_usage_bytes"] = ["system_memory_usage_bytes"])
    (hnil : setList [] = []) :
    eventCause logF setList none [] memEvent2 = some
      { hypothesis := "[resource_exhaustion] Correlated incident: metric anomaly in system_memory_usage_bytes"
        confidence := score_correlated_event logF memEvent1
        severity := Severity.from_score (score_correlated_event logF memEvent1)
        category := .resource_exhaustion
        evidence := ["metrics=1", "log_bursts=0", "latency_services=0"]
        contributing_signals := ["metric:system_memory_usage_bytes"]
        affected_services := []
        recommended_action := "Check resource limits, scale horizontally or increase quotas."
        deployment := none } := by
  norm_num +decide [eventCause, categorize, score_deployment_correlation,
    signalsFromEvent, dedupKeepFirst, actionForCategory, pyMinBy, pyJoin,
    RcaCategory.value, hset, hnil, qMin, memScore_eq2 logF,
    memConf_round logF hz hr1 hr2,
    show memEvent2.confidence = 3/5 from rfl,
    show memEvent2.window_start = 3/2 from rfl,
    show memEvent2.service_latency = [] from rfl,
    show memEvent2.log_bursts = [] from rfl,
    show memEvent2.metric_anomalies = [memAnomaly] from rfl,
    show memAnomaly.metric_name = "system_memory_usage_bytes" from rfl]

/-- C9: hypothesis generation does not deduplicate by hypothesis string.
Two correlated events with identical signal structure (the scenario of the
repo test test_generate_deduplicates_same_hypothesis_events, with a
critical-severity memory anomaly so the deterministic score clears the 0.12
display threshold) yield two RootCauses with the same hypothesis string.
log1p is constrained only by log1p 0 = 0 and ln 2 / ln 201 ∈ [1/10, 1],
facts the real function satisfies.  The spec and the repo test require at
most one cause per hypothesis. -/
theorem C9_generate_missing_dedup (logF : ℕ → ℚ)
    (setList : List String → List String)
    (hz : logF 0 = 0) (hr1 : 1/10 ≤ logF 1 / logF 200)
    (hr2 : logF 1 / logF 200 ≤ 1)
    (hset : setList ["system_memory_usage_bytes"] = ["system_memory_usage_bytes"])
    (hnil : setList [] = []) :
    (generate logF setList [] [] [] [] [] [memEvent1, memEvent2]
        none []).map RootCause.hypothesis
      = ["[resource_exhaustion] Correlated incident: metric anomaly in system_memory_usage_bytes",
         "[resource_exhaustion] Correlated incident: metric anomaly in system_memory_usage_bytes"] := by
  have hlb := (memScore_bounds logF hz hr1 hr2).1
  have hc1 := memCause_eq logF setList hz hr1 hr2 hset hnil
  have hc2 := memCause_eq2 logF setList hz hr1 hr2 hset hnil
  norm_num [generate, List.filterMap_cons, hc1, hc2, pySorted, insBefore,
    hlb, show ¬(score_correlated_event logF memEvent1 <
      score_correlated_event logF memEvent1) from lt_irrefl _]
  split
  · rename_i h
    exact absurd h (by simp)
  · simp

/-- C9 witness: the duplicate-hypothesis run with the rational log1p
stand-in and the identity set order. -/
theorem C9_generate_missing_dedup_witness :
    (logStub 0 = 0 ∧ (1:ℚ)/10 ≤ logStub 1 / logStub 200 ∧
      logStub 1 / logStub 200 ≤ 1) ∧
    ((generate logStub (fun l => l) [] [] [] [] [] [memEvent1, memEvent2]
        none []).map RootCause.hypothesis
      = ["[resource_exhaustion] Correlated incident: metric anomaly in system_memory_usage_bytes",
         "[resource_exhaustion] Correlated incident: metric anomaly in system_memory_usage_bytes"]) :=
  ⟨⟨by norm_num [logStub], by norm_num [logStub], by norm_num [logStub]⟩,
    C9_generate_missing_dedup logStub (fun l => l) (by norm_num [logStub])
      (by norm_num [logStub]) (by norm_num [logStub]) rfl rfl⟩

/-- Helper: the max(0, 1-p) guard in granger strength is the identity when
the CDF value is nonnegative. -/
theorem strength_max_drop (q s : ℚ) (h : 0 ≤ q) :
    roundTo 3 (max 0 (1 - (1 - q)) * s) = roundTo 3 ((1 - (1 - q)) * s) := by
  rw [max_eq_right (by linarith)]

/-- C8: granger_pair_analysis returns nothing for unequal-length or short
series; when it returns a result, the F statistic is
((SSR-SSU)/k)/(SSU/(n-2k-1)) with k = max_lag, is_causal holds exactly when
p < p_threshold and F > 1, and (whenever the CDF oracle is nonnegative, as a
probability is) strength = (1-p)·min(1, F/granger_strength_scale) rounded to
3 digits. -/
theorem C8_granger_pair_analysis (cn en : String) (cv ev : List ℚ)
    (maxLag : ℕ) (thr : ℚ) (ols : List (List ℚ) → List ℚ → ℚ)
    (fcdf : ℚ → ℕ → ℤ → ℚ) :
    ((¬ (cv.length = ev.length) ∨ cv.length < maxLag + 10) →
      grangerPair cn cv en ev maxLag thr ols fcdf = none) ∧
    (∀ (r : GrangerResult) (D : ℤ) (F p : ℚ),
      D = ((ev.length - maxLag : ℕ) : ℤ) - 2 * (maxLag : ℤ) - 1 →
      F = ((grangerSSR ev maxLag ols - grangerSSU cv ev maxLag ols) / (maxLag : ℚ)) /
            (grangerSSU cv ev maxLag ols / (D : ℚ)) →
      p = 1 - fcdf F maxLag D →
      grangerPair cn cv en ev maxLag thr ols fcdf = some r →
      r.f_statistic = roundTo 4 F ∧
      r.p_value = roundTo 6 p ∧
      (r.is_causal = true ↔ (p < thr ∧ 1 < F)) ∧
      (0 ≤ fcdf F maxLag D →
        r.strength = roundTo 3 ((1 - p) * min 1 (F / 10)))) := by
  constructor
  · intro h
    unfold grangerPair
    rw [if_pos h]
  · intro r D F p hD hF hp hsome
    subst hD hF hp
    simp only [grangerSSR, grangerSSU]
    simp only [grangerPair] at hsome
    split at hsome
    · exact absurd hsome (by simp)
    · split at hsome
      · exact absurd hsome (by simp)
      · have hr := (Option.some.injEq _ _).mp hsome
        subst hr
        refine ⟨rfl, rfl, ?_, ?_⟩
        · simp only [Bool.and_eq_true, decide_eq_true_eq]
        · intro hcdf
          exact strength_max_drop _ _ hcdf

/-- C8 witness: 13-sample series with concrete residual and CDF oracles run
through the theorem. -/
theorem C8_granger_pair_analysis_witness :
    (grangerPair "c" (List.replicate 13 (0 : ℚ)) "e" (List.replicate 13 (0 : ℚ))
        3 (1/20) (fun X _ => if X.length = 4 then 2 else 1) (fun _ _ _ => 9/10)
      = some ⟨"c", "e", 3, 1, 1/10, false, 9/100⟩) ∧
    ((0 : ℚ) ≤ 9/10) ∧
    ((⟨"c", "e", 3, 1, 1/10, false, 9/100⟩ : GrangerResult).is_causal = true ↔
      ((1 : ℚ) - 9/10 < 1/20 ∧ (1 : ℚ) <
        ((grangerSSR (List.replicate 13 (0 : ℚ)) 3 (fun X _ => if X.length = 4 then 2 else 1) -
          grangerSSU (List.replicate 13 (0 : ℚ)) (List.replicate 13 (0 : ℚ)) 3
            (fun X _ => if X.length = 4 then 2 else 1)) / (3 : ℚ)) /
          (grangerSSU (List.replicate 13 (0 : ℚ)) (List.replicate 13 (0 : ℚ)) 3
            (fun X _ => if X.length = 4 then 2 else 1) /
            ((((List.replicate 13 (0 : ℚ)).length - 3 : ℕ) : ℤ) - 2 * 3 - 1 : ℤ)))) := by
  have hF : ((grangerSSR (List.replicate 13 (0 : ℚ)) 3 (fun X _ => if X.length = 4 then 2 else 1) -
      grangerSSU (List.replicate 13 (0 : ℚ)) (List.replicate 13 (0 : ℚ)) 3
        (fun X _ => if X.length = 4 then 2 else 1)) / (3 : ℚ)) /
      (grangerSSU (List.replicate 13 (0 : ℚ)) (List.replicate 13 (0 : ℚ)) 3
        (fun X _ => if X.length = 4 then 2 else 1) /
        ((((List.replicate 13 (0 : ℚ)).length - 3 : ℕ) : ℤ) - 2 * 3 - 1 : ℤ)) = 1 := by
    norm_num [grangerSSR, grangerSSU, lagMatrix, causeLagCols]
  have hsome : grangerPair "c" (List.replicate 13 (0 : ℚ)) "e"
      (List.replicate 13 (0 : ℚ)) 3 (1/20)
      (fun X _ => if X.length = 4 then 2 else 1) (fun _ _ _ => 9/10)
      = some ⟨"c", "e", 3, 1, 1/10, false, 9/100⟩ := by
    norm_num [grangerPair, lagMatrix, causeLagCols, roundTo, Int.floor_eq_iff]
  have hmain := (C8_granger_pair_analysis "c" "e"
      (List.replicate 13 (0 : ℚ)) (List.replicate 13 (0 : ℚ)) 3 (1/20)
      (fun X _ => if X.length = 4 then 2 else 1) (fun _ _ _ => 9/10)).2
    ⟨"c", "e", 3, 1, 1/10, false, 9/100⟩
    ((((List.replicate 13 (0 : ℚ)).length - 3 : ℕ) : ℤ) - 2 * 3 - 1) _ _
    rfl rfl rfl hsome
  exact ⟨hsome, by norm_num, hmain.2.2.1⟩

/-- C1 witness: two metric anomalies 10 seconds apart with a 45-second
window produce one two-signal event with confidence 0.6; the invariants are
obtained from the theorem. -/
theorem C1_correlate_event_invariants_witness :
    ((0 : ℚ) < 45) ∧
    ((⟨-45, 45,
        [⟨"m", 0, 0, ChangeType.spike, 0, 0, 0, (0, 0), Severity.low⟩,
         ⟨"m", 10, 0, ChangeType.spike, 0, 0, 0, (0, 0), Severity.low⟩],
        [], [], 2, 3/5⟩ : CorrelatedEvent) ∈
      correlate (fun _ => []) (fun _ => []) (fun s => s)
        [⟨"m", 0, 0, ChangeType.spike, 0, 0, 0, (0, 0), Severity.low⟩,
         ⟨"m", 10, 0, ChangeType.spike, 0, 0, 0, (0, 0), Severity.low⟩]
        [] [] 45) ∧
    ((⟨-45, 45,
        [⟨"m", 0, 0, ChangeType.spike, 0, 0, 0, (0, 0), Severity.low⟩,
         ⟨"m", 10, 0, ChangeType.spike, 0, 0, 0, (0, 0), Severity.low⟩],
        [], [], 2, 3/5⟩ : CorrelatedEvent).signal_count = 2 + 0 + 0 ∧
     (2 : ℕ) ≤ 2 ∧
     ((3 : ℚ)/5) = min 1 ((2 : ℚ) * (3/10) + (0 : ℚ) * (7/20) + min (7/20) ((0 : ℚ) * (7/20))) ∧
     (0 : ℚ) ≤ 3/5 ∧ (3 : ℚ)/5 ≤ 1) := by
  have hmem : (⟨-45, 45,
        [⟨"m", 0, 0, ChangeType.spike, 0, 0, 0, (0, 0), Severity.low⟩,
         ⟨"m", 10, 0, ChangeType.spike, 0, 0, 0, (0, 0), Severity.low⟩],
        [], [], 2, 3/5⟩ : CorrelatedEvent) ∈
      correlate (fun _ => []) (fun _ => []) (fun s => s)
        [⟨"m", 0, 0, ChangeType.spike, 0, 0, 0, (0, 0), Severity.low⟩,
         ⟨"m", 10, 0, ChangeType.spike, 0, 0, 0, (0, 0), Severity.low⟩]
        [] [] 45 := by
    norm_num +decide [correlate, correlateGo, pySorted, insBefore, qlt,
      latencyKeep, overlapW, roundTo, Int.floor_eq_iff]
  have hinv := C1_correlate_event_invariants (fun _ => []) (fun _ => [])
    (fun s => s)
    [⟨"m", 0, 0, ChangeType.spike, 0, 0, 0, (0, 0), Severity.low⟩,
     ⟨"m", 10, 0, ChangeType.spike, 0, 0, 0, (0, 0), Severity.low⟩]
    [] [] 45 (by norm_num) _ hmem
  exact ⟨by norm_num, hmem, hinv⟩

/-- Helper: qSum commutes with scalar multiplication. -/
theorem qSum_map_mul (c : ℚ) (l : List ℚ) :
    qSum (l.map (fun v => c * v)) = c * qSum l := by
  induction l with
  | nil => simp [qSum]
  | cons x rest ih =>
    simp only [List.map_cons, qSum, List.foldr_cons] at *
    rw [ih]; ring

/-- Helper: the mean commutes with scalar multiplication. -/
theorem qMean_map_mul (c : ℚ) (l : List ℚ) :
    qMean (l.map (fun v => c * v)) = c * qMean l := by
  simp only [qMean, List.length_map, qSum_map_mul, mul_div_assoc]

/-- Helper: the population variance scales with the square of the factor. -/
theorem qVariance_map_mul (c : ℚ) (l : List ℚ) :
    qVariance (l.map (fun v => c * v)) = c ^ 2 * qVariance l := by
  have key : qSum (List.map (fun x => c ^ 2 * (x - qMean l) ^ 2) l)
      = c ^ 2 * qSum (List.map (fun x => (x - qMean l) ^ 2) l) := by
    have h := qSum_map_mul (c ^ 2) (l.map (fun x => (x - qMean l) ^ 2))
    rw [List.map_map] at h
    exact h
  simp only [qVariance, List.length_map, List.map_map, qMean_map_mul]
  have h1 : ((fun x => (x - c * qMean l) ^ 2) ∘ fun v => c * v)
      = fun x => c ^ 2 * (x - qMean l) ^ 2 := by
    funext x; simp only [Function.comp]; ring
  rw [h1, key, mul_div_assoc]

/-- Helper: numpy sign is invariant under positive scaling. -/
theorem qSign_mul (c x : ℚ) (hc : 0 < c) : qSign (c * x) = qSign x := by
  rcases lt_trichotomy x 0 with hx | hx | hx
  · have : c * x < 0 := mul_neg_of_pos_of_neg hc hx
    simp [qSign, hx, this, not_lt_of_lt hx, not_lt_of_lt this]
  · simp [qSign, hx]
  · have : 0 < c * x := mul_pos hc hx
    simp [qSign, hx, this]

/-- Helper: successive differences commute with scalar multiplication. -/
theorem qDiff_map_mul (c : ℚ) (l : List ℚ) :
    qDiff (l.map (fun v => c * v)) = (qDiff l).map (fun v => c * v) := by
  simp only [qDiff, ← List.map_tail, List.zipWith_map, List.map_zipWith]
  congr 1
  funext a b
  ring

/-- Helper: oscillation detection is invariant under positive scaling. -/
theorem detectOscillation_map_mul (c : ℚ) (l : List ℚ) (hc : 0 < c) :
    detectOscillation (l.map (fun v => c * v)) = detectOscillation l := by
  have hsigns : (qDiff (l.map (fun v => c * v))).map qSign = (qDiff l).map qSign := by
    rw [qDiff_map_mul, List.map_map]
    exact List.map_congr_left (fun x _ => qSign_mul c x hc)
  simp only [detectOscillation, hsigns, List.length_map]

/-- Helper: the CUSUM loop crosses the threshold at exactly the same indices
when values, mean, slack, threshold and accumulated state are all scaled by a
positive factor. -/
theorem cusumGo_map_index_scale (ts arr : List ℚ) (mu sigma sigma2 k h c : ℚ)
    (osc : List ℕ) (m1 m2 : String) (hc : 0 < c) :
    ∀ items : List (ℕ × ℚ), ∀ pos neg : ℚ,
    (cusumGo ts (arr.map (fun v => c * v)) (c * mu) sigma2 (c * k) (c * h) osc m1
        (items.map (fun p => (p.1, c * p.2))) (c * pos) (c * neg)).map ChangePoint.index
      = (cusumGo ts arr mu sigma k h osc m2 items pos neg).map ChangePoint.index := by
  intro items
  induction items with
  | nil => intro pos neg; simp [cusumGo]
  | cons p rest ih =>
    intro pos neg
    obtain ⟨i, a⟩ := p
    have hmax : ∀ y : ℚ, max 0 (c * y) = c * max 0 y := by
      intro y
      rw [mul_max_of_nonneg _ _ hc.le, mul_zero]
    have hpos1 : max 0 (c * pos + c * a - c * mu - c * k)
        = c * max 0 (pos + a - mu - k) := by
      rw [← hmax]; ring_nf
    have hneg1 : max 0 (c * neg - c * a + c * mu - c * k)
        = c * max 0 (neg - a + mu - k) := by
      rw [← hmax]; ring_nf
    have hcond : (c * h < max 0 (c * pos + c * a - c * mu - c * k) ∨
        c * h < max 0 (c * neg - c * a + c * mu - c * k)) ↔
        (h < max 0 (pos + a - mu - k) ∨ h < max 0 (neg - a + mu - k)) := by
      rw [hpos1, hneg1, mul_lt_mul_left hc, mul_lt_mul_left hc]
    by_cases hfire : h < max 0 (pos + a - mu - k) ∨ h < max 0 (neg - a + mu - k)
    · simp only [List.map_cons, cusumGo, if_pos hfire, if_pos (hcond.mpr hfire),
        List.map_cons]
      have hrec := ih 0 0
      rw [mul_zero] at hrec
      rw [hrec]
    · simp only [List.map_cons, cusumGo, if_neg hfire, if_neg (fun hx => hfire (hcond.mp hx))]
      have hrec := ih (max 0 (pos + a - mu - k)) (max 0 (neg - a + mu - k))
      rw [← hpos1, ← hneg1] at hrec
      exact hrec

/-- C6: the CUSUM change-point detector is scale invariant: scaling the
values by any k > 0 (which scales the numpy std — characterised here by
sigma ≥ 0, sigma² = variance — by the same factor) yields change points at
exactly the same indices. -/
theorem C6_cusum_scale_invariance (ts vals : List ℚ) (thr c sigma : ℚ)
    (metric_name : String) (hc : 0 < c) (hσ0 : 0 ≤ sigma)
    (hσ : sigma ^ 2 = qVariance vals) :
    (0 ≤ c * sigma ∧ (c * sigma) ^ 2 = qVariance (vals.map (fun v => c * v))) ∧
    (cusumDetect ts (vals.map (fun v => c * v)) thr metric_name
        (c * sigma)).map ChangePoint.index
      = (cusumDetect ts vals thr metric_name sigma).map ChangePoint.index := by
  refine ⟨⟨mul_nonneg hc.le hσ0, ?_⟩, ?_⟩
  · rw [qVariance_map_mul, mul_pow, hσ]
  · unfold cusumDetect
    rw [List.length_map]
    by_cases hlen : vals.length < 10
    · rw [if_pos hlen, if_pos hlen]
    · rw [if_neg hlen, if_neg hlen]
      by_cases hs0 : sigma = 0
      · have : c * sigma = 0 := by rw [hs0, mul_zero]
        rw [if_pos this, if_pos hs0]
      · have hcs0 : ¬ (c * sigma = 0) := mul_ne_zero (ne_of_gt hc) hs0
        rw [if_neg hcs0, if_neg hs0]
        rw [qMean_map_mul, detectOscillation_map_mul c vals hc]
        have henum : (vals.map (fun v => c * v)).enum.drop 1
            = (vals.enum.drop 1).map (fun p => (p.1, c * p.2)) := by
          rw [List.enum_map, ← List.map_drop]
          exact List.map_congr_left (fun p _ => by cases p; rfl)
        rw [henum]
        have hmain := cusumGo_map_index_scale ts vals (qMean vals) sigma
          (c * sigma) ((1/2) * sigma) (thr * sigma) c (detectOscillation vals)
          metric_name metric_name hc (vals.enum.drop 1) 0 0
        rw [mul_zero] at hmain
        have e1 : c * ((1/2) * sigma) = (1/2) * (c * sigma) := by ring
        have e2 : c * (thr * sigma) = thr * (c * sigma) := by ring
        rw [e1, e2] at hmain
        exact hmain

/-- C6 witness: a concrete alternating series with rational std 1, scaled by
2, run through the theorem. -/
theorem C6_cusum_scale_invariance_witness :
    ((0 : ℚ) < 2 ∧ (0 : ℚ) ≤ 1 ∧
      (1 : ℚ) ^ 2 = qVariance [0, 2, 0, 2, 0, 2, 0, 2, 0, 2]) ∧
    (((0 : ℚ) ≤ 2 * 1 ∧
      ((2 : ℚ) * 1) ^ 2
        = qVariance (([0, 2, 0, 2, 0, 2, 0, 2, 0, 2] : List ℚ).map (fun v => 2 * v))) ∧
     (cusumDetect [0, 1, 2, 3, 4, 5, 6, 7, 8, 9]
        (([0, 2, 0, 2, 0, 2, 0, 2, 0, 2] : List ℚ).map (fun v => 2 * v)) 6 "m"
        (2 * 1)).map ChangePoint.index
      = (cusumDetect [0, 1, 2, 3, 4, 5, 6, 7, 8, 9]
          ([0, 2, 0, 2, 0, 2, 0, 2, 0, 2] : List ℚ) 6 "m" 1).map ChangePoint.index) := by
  have hvar : (1 : ℚ) ^ 2 = qVariance [0, 2, 0, 2, 0, 2, 0, 2, 0, 2] := by
    norm_num [qVariance, qMean, qSum]
  exact ⟨⟨by norm_num, by norm_num, hvar⟩,
    C6_cusum_scale_invariance [0, 1, 2, 3, 4, 5, 6, 7, 8, 9]
      [0, 2, 0, 2, 0, 2, 0, 2, 0, 2] 6 2 1 "m" (by norm_num) (by norm_num) hvar⟩

/-- Helper: one sevMax step never lowers the running best. -/
theorem sevMax_le_left (b s : Severity) : b.weight ≤ (sevMax b s).weight := by
  unfold sevMax; split <;> omega

/-- Helper: one sevMax step dominates the item it absorbs. -/
theorem sevMax_le_right (b s : Severity) : s.weight ≤ (sevMax b s).weight := by
  unfold sevMax; split <;> omega

/-- Helper: the inner severity fold never lowers its starting value. -/
theorem foldl_sevMax_init (g : List Severity) :
    ∀ b : Severity, b.weight ≤ (g.foldl sevMax b).weight := by
  induction g with
  | nil => intro b; simp
  | cons s rest ih =>
    intro b
    calc b.weight ≤ (sevMax b s).weight := sevMax_le_left b s
    _ ≤ _ := ih (sevMax b s)

/-- Helper: the inner severity fold dominates every member. -/
theorem foldl_sevMax_mem (g : List Severity) :
    ∀ b : Severity, ∀ s ∈ g, s.weight ≤ (g.foldl sevMax b).weight := by
  induction g with
  | nil => intro b s hs; simp at hs
  | cons x rest ih =>
    intro b s hs
    rcases List.mem_cons.mp hs with hs | hs
    · calc s.weight = x.weight := by rw [hs]
      _ ≤ (sevMax b x).weight := sevMax_le_right b x
      _ ≤ _ := foldl_sevMax_init rest (sevMax b x)
    · exact ih (sevMax b x) s hs

/-- Helper: the outer fold of _overall_severity never lowers its start. -/
theorem groupsFold_init (groups : List (List Severity)) :
    ∀ b : Severity, b.weight ≤ (groups.foldl (fun best g => g.foldl sevMax best) b).weight := by
  induction groups with
  | nil => intro b; simp
  | cons g rest ih =>
    intro b
    calc b.weight ≤ (g.foldl sevMax b).weight := foldl_sevMax_init g b
    _ ≤ _ := ih (g.foldl sevMax b)

/-- Helper: _overall_severity dominates every member of every group. -/
theorem groupsFold_mem (groups : List (List Severity)) :
    ∀ b : Severity, ∀ g ∈ groups, ∀ s ∈ g,
      s.weight ≤ (groups.foldl (fun best gr => gr.foldl sevMax best) b).weight := by
  induction groups with
  | nil => intro b g hg; simp at hg
  | cons g0 rest ih =>
    intro b g hg s hs
    rcases List.mem_cons.mp hg with hg | hg
    · subst hg
      calc s.weight ≤ (g.foldl sevMax b).weight := foldl_sevMax_mem g b s hs
      _ ≤ _ := groupsFold_init rest (g.foldl sevMax b)
    · exact ih (g0.foldl sevMax b) g hg s hs

/-- C5 (amended): overall severity dominates the severity of every metric
anomaly, log burst, log pattern, service latency row and SLO alert; in the
predictive-only case (no actionable signals, some forecast, degradation or
change point) the final severity is capped at medium, with the warning
appended exactly when the raw rollup exceeded medium. -/
theorem C5_severity_rollup_cap (ma lb lp sl slo fc ep rc dg cp : List Severity)
    (warnings : List String) :
    (∀ s ∈ ma ++ lb ++ lp ++ sl ++ slo,
      s.weight ≤ (severityCapStage ma lb lp sl slo fc ep rc dg cp warnings).1.weight) ∧
    ((ma = [] ∧ lb = [] ∧ lp = [] ∧ sl = [] ∧ ep = [] ∧ slo = [] ∧ rc = []) →
     (¬ fc = [] ∨ ¬ dg = [] ∨ ¬ cp = []) →
     (severityCapStage ma lb lp sl slo fc ep rc dg cp warnings).1.weight
        ≤ Severity.medium.weight ∧
     (Severity.medium.weight < (overallSeverity [ma, lb, lp, sl, slo, fc]).weight →
       (severityCapStage ma lb lp sl slo fc ep rc dg cp warnings).2
         = warnings ++ [capWarning]) ∧
     ((overallSeverity [ma, lb, lp, sl, slo, fc]).weight ≤ Severity.medium.weight →
       (severityCapStage ma lb lp sl slo fc ep rc dg cp warnings).2 = warnings)) := by
  have hbase : ∀ s ∈ ma ++ lb ++ lp ++ sl ++ slo,
      s.weight ≤ (overallSeverity [ma, lb, lp, sl, slo, fc]).weight := by
    intro s hs
    simp only [List.mem_append] at hs
    rcases hs with ((((h | h) | h) | h) | h)
    · exact groupsFold_mem _ _ ma (by simp) s h
    · exact groupsFold_mem _ _ lb (by simp) s h
    · exact groupsFold_mem _ _ lp (by simp) s h
    · exact groupsFold_mem _ _ sl (by simp) s h
    · exact groupsFold_mem _ _ slo (by simp) s h
  by_cases hcap : (¬ (¬ ma = [] ∨ ¬ lb = [] ∨ ¬ lp = [] ∨ ¬ sl = [] ∨
      ¬ ep = [] ∨ ¬ slo = [] ∨ ¬ rc = [])) ∧ (¬ fc = [] ∨ ¬ dg = [] ∨ ¬ cp = [])
  · by_cases hgt : Severity.medium.weight < (overallSeverity [ma, lb, lp, sl, slo, fc]).weight
    · have hval : severityCapStage ma lb lp sl slo fc ep rc dg cp warnings
          = (Severity.medium, warnings ++ [capWarning]) := by
        simp only [severityCapStage, if_pos hcap, if_pos hgt]
      refine ⟨?_, ?_⟩
      · intro s hs
        push_neg at hcap
        obtain ⟨⟨h1, h2, h3, h4, _, h6, _⟩, _⟩ := hcap
        subst h1 h2 h3 h4 h6
        simp at hs
      · intro _ _
        rw [hval]
        exact ⟨Nat.le_refl _, fun _ => rfl,
          fun hle => (Nat.lt_irrefl _ (Nat.lt_of_lt_of_le hgt hle)).elim⟩
    · have hval : severityCapStage ma lb lp sl slo fc ep rc dg cp warnings
          = (overallSeverity [ma, lb, lp, sl, slo, fc], warnings) := by
        simp only [severityCapStage, if_pos hcap, if_neg hgt]
      refine ⟨?_, ?_⟩
      · intro s hs
        rw [hval]
        exact hbase s hs
      · intro _ _
        rw [hval]
        exact ⟨Nat.le_of_not_lt hgt, fun h => absurd h hgt, fun _ => rfl⟩
  · have hval : severityCapStage ma lb lp sl slo fc ep rc dg cp warnings
        = (overallSeverity [ma, lb, lp, sl, slo, fc], warnings) := by
      simp only [severityCapStage, if_neg hcap]
    refine ⟨?_, ?_⟩
    · intro s hs
      rw [hval]
      exact hbase s hs
    · rintro ⟨h1, h2, h3, h4, h5, h6, h7⟩ hpred
      exact absurd ⟨by subst h1 h2 h3 h4 h5 h6 h7; simp, hpred⟩ hcap

/-- C5 witness: a concrete run with one high-severity SLO alert through the
amended theorem. -/
theorem C5_severity_rollup_cap_witness :
    (Severity.high ∈ (([] : List Severity) ++ [] ++ [] ++ [] ++ [Severity.high])) ∧
    Severity.high.weight ≤
      (severityCapStage [] [] [] [] [Severity.high] [] [] [] [] [] []).1.weight :=
  ⟨by decide,
   (C5_severity_rollup_cap [] [] [] [] [Severity.high] [] [] [] [] [] []).1
     Severity.high (by decide)⟩

/-- C5 counterexample: with no actionable signals and a single low-severity
forecast, the predictive-only branch fires but the code records no warning
(the claim asserts a warning is recorded in this case); the final severity is
low and the warnings list stays empty. -/
theorem C5_predictive_warning_counterexample :
    severityCapStage [] [] [] [] [] [Severity.low] [] [] [] [] []
      = (Severity.low, []) ∧
    (¬ ([Severity.low] : List Severity) = []) := by
  constructor
  · decide
  · decide

/-- Helper: the window loop emits at most one alert. -/
theorem sloFirstAlert_length_le_one (s : String) (er b d : ℚ)
    (ws : List (String × ℚ × ℚ × Severity)) :
    (sloFirstAlert s er b d ws).length ≤ 1 := by
  induction ws with
  | nil => simp [sloFirstAlert]
  | cons w rest ih =>
    simp only [sloFirstAlert]
    split
    · exact ih
    · split
      · simp
      · exact ih

/-- Helper: any emitted alert comes from the first qualifying window. -/
theorem sloFirstAlert_mem (s : String) (er b d : ℚ) :
    ∀ ws : List (String × ℚ × ℚ × Severity), ∀ a ∈ sloFirstAlert s er b d ws,
    ∃ pre w post, ws = pre ++ w :: post ∧ a = mkSloAlert s er b d w ∧
      sloQualifies d b w ∧ ∀ v ∈ pre, ¬ sloQualifies d b v := by
  intro ws
  induction ws with
  | nil => intro a ha; simp [sloFirstAlert] at ha
  | cons w rest ih =>
    intro a ha
    simp only [sloFirstAlert] at ha
    by_cases h1 : d < w.2.1 * (1/2)
    · rw [if_pos h1] at ha
      obtain ⟨pre, w1, post, hsplit, hmk, hq, hpre⟩ := ih a ha
      refine ⟨w :: pre, w1, post, by rw [hsplit]; rfl, hmk, hq, ?_⟩
      intro v hv
      rcases List.mem_cons.mp hv with hv | hv
      · rw [hv]; intro hq1; exact hq1.1 h1
      · exact hpre v hv
    · rw [if_neg h1] at ha
      by_cases h2 : w.2.2.1 ≤ b
      · rw [if_pos h2] at ha
        rcases List.mem_singleton.mp ha with rfl
        exact ⟨[], w, rest, rfl, rfl, ⟨h1, h2⟩, by intro v hv; simp at hv⟩
      · rw [if_neg h2] at ha
        obtain ⟨pre, w1, post, hsplit, hmk, hq, hpre⟩ := ih a ha
        refine ⟨w :: pre, w1, post, by rw [hsplit]; rfl, hmk, hq, ?_⟩
        intro v hv
        rcases List.mem_cons.mp hv with hv | hv
        · rw [hv]; intro hq1; exact h2 hq1.2
        · exact hpre v hv

/-- C10: the SLO burn evaluator returns at most one alert; it returns none
when either counts list is empty, fewer than two timestamps exist, the total
count is zero, or the allowed error rate 1 - target is nonpositive; and any
emitted alert comes from the first window in the configured order whose
threshold the overall burn rate meets and whose length allows
duration ≥ 0.5·window_seconds. -/
theorem C10_slo_burn_evaluate (service : String)
    (error_counts total_counts ts : List ℚ) (target : ℚ) :
    (sloEvaluate service error_counts total_counts ts target).length ≤ 1 ∧
    (error_counts = [] ∨ total_counts = [] ∨ ts.length < 2 →
      sloEvaluate service error_counts total_counts ts target = []) ∧
    (qSum (total_counts.take (min error_counts.length total_counts.length)) = 0 →
      sloEvaluate service error_counts total_counts ts target = []) ∧
    (1 - target ≤ 0 →
      sloEvaluate service error_counts total_counts ts target = []) ∧
    (∀ a ∈ sloEvaluate service error_counts total_counts ts target,
      ∃ pre w post, sloBurnWindows = pre ++ w :: post ∧
        a = mkSloAlert service
              (qSum (error_counts.take (min error_counts.length total_counts.length)) /
               qSum (total_counts.take (min error_counts.length total_counts.length)))
              (qSum (error_counts.take (min error_counts.length total_counts.length)) /
               qSum (total_counts.take (min error_counts.length total_counts.length)) /
               (1 - target))
              (max 0 (ts.getLastD 0 - ts.headD 0)) w ∧
        sloQualifies (max 0 (ts.getLastD 0 - ts.headD 0))
          (qSum (error_counts.take (min error_counts.length total_counts.length)) /
           qSum (total_counts.take (min error_counts.length total_counts.length)) /
           (1 - target)) w ∧
        ∀ v ∈ pre, ¬ sloQualifies (max 0 (ts.getLastD 0 - ts.headD 0))
          (qSum (error_counts.take (min error_counts.length total_counts.length)) /
           qSum (total_counts.take (min error_counts.length total_counts.length)) /
           (1 - target)) v) := by
  refine ⟨?_, ?_, ?_, ?_, ?_⟩
  · simp only [sloEvaluate]
    split
    · simp
    · split
      · simp
      · split
        · simp
        · exact sloFirstAlert_length_le_one _ _ _ _ _
  · intro h
    simp only [sloEvaluate, if_pos h]
  · intro h3
    by_cases hdeg : error_counts = [] ∨ total_counts = [] ∨ ts.length < 2
    · simp only [sloEvaluate, if_pos hdeg]
    · simp only [sloEvaluate, if_neg hdeg, if_pos h3]
  · intro h4
    by_cases hdeg : error_counts = [] ∨ total_counts = [] ∨ ts.length < 2
    · simp only [sloEvaluate, if_pos hdeg]
    · by_cases h3 : qSum (total_counts.take (min error_counts.length total_counts.length)) = 0
      · simp only [sloEvaluate, if_neg hdeg, if_pos h3]
      · simp only [sloEvaluate, if_neg hdeg, if_neg h3, if_pos h4]
  · intro a ha
    simp only [sloEvaluate] at ha
    split at ha
    · simp at ha
    · split at ha
      · simp at ha
      · split at ha
        · simp at ha
        · exact sloFirstAlert_mem _ _ _ _ _ a ha

/-- C10 witness: a concrete run that fires the 1h critical window through the
theorem. -/
theorem C10_slo_burn_evaluate_witness :
    ((⟨"svc", "1h", 1/50, 20, 139/50, Severity.critical⟩ : SloBurnAlert) ∈
      sloEvaluate "svc" [2, 2] [100, 100] [0, 3600] (999/1000)) ∧
    (∃ pre w post, sloBurnWindows = pre ++ w :: post ∧
      (⟨"svc", "1h", 1/50, 20, 139/50, Severity.critical⟩ : SloBurnAlert)
        = mkSloAlert "svc"
            (qSum (List.take (min (List.length [(2:ℚ), 2]) (List.length [(100:ℚ), 100])) [(2:ℚ), 2]) /
             qSum (List.take (min (List.length [(2:ℚ), 2]) (List.length [(100:ℚ), 100])) [(100:ℚ), 100]))
            (qSum (List.take (min (List.length [(2:ℚ), 2]) (List.length [(100:ℚ), 100])) [(2:ℚ), 2]) /
             qSum (List.take (min (List.length [(2:ℚ), 2]) (List.length [(100:ℚ), 100])) [(100:ℚ), 100]) /
             (1 - 999/1000))
            (max 0 (List.getLastD [(0:ℚ), 3600] 0 - List.headD [(0:ℚ), 3600] 0)) w ∧
      sloQualifies (max 0 (List.getLastD [(0:ℚ), 3600] 0 - List.headD [(0:ℚ), 3600] 0))
        (qSum (List.take (min (List.length [(2:ℚ), 2]) (List.length [(100:ℚ), 100])) [(2:ℚ), 2]) /
         qSum (List.take (min (List.length [(2:ℚ), 2]) (List.length [(100:ℚ), 100])) [(100:ℚ), 100]) /
         (1 - 999/1000)) w ∧
      ∀ v ∈ pre, ¬ sloQualifies (max 0 (List.getLastD [(0:ℚ), 3600] 0 - List.headD [(0:ℚ), 3600] 0))
        (qSum (List.take (min (List.length [(2:ℚ), 2]) (List.length [(100:ℚ), 100])) [(2:ℚ), 2]) /
         qSum (List.take (min (List.length [(2:ℚ), 2]) (List.length [(100:ℚ), 100])) [(100:ℚ), 100]) /
         (1 - 999/1000)) v) := by
  have hmem : (⟨"svc", "1h", 1/50, 20, 139/50, Severity.critical⟩ : SloBurnAlert) ∈
      sloEvaluate "svc" [2, 2] [100, 100] [0, 3600] (999/1000) := by
    norm_num +decide [sloEvaluate, sloFirstAlert, mkSloAlert, sloBurnWindows,
      qSum, roundTo, Int.floor_eq_iff]
  exact ⟨hmem,
    (C10_slo_burn_evaluate "svc" [2, 2] [100, 100] [0, 3600] (999/1000)).2.2.2.2 _ hmem⟩

/-- C7 (amended): starting from DEFAULT_WEIGHTS, after any finite sequence of
SignalWeights.update calls whose signals lie in the core set
metrics/logs/traces, every stored weight is non-negative and the weights of
metrics, logs and traces sum to 1 within 1e-9. -/
theorem C7_adaptive_weights (us : List (String × Bool))
    (h : ∀ u ∈ us, u.1 ∈ coreSignals) :
    (∀ p ∈ applyUpdates defaultWeights us, 0 ≤ p.2) ∧
    |coreSum (applyUpdates defaultWeights us) - 1| ≤ 1/1000000000 := by
  obtain ⟨a2, b2, c2, he, ha2, hb2, hc2, hs2⟩ :=
    applyUpdates_shape us (3/10) (7/20) (7/20) (by norm_num) (by norm_num)
      (by norm_num) (by norm_num) h
  have hd : applyUpdates defaultWeights us
      = [("metrics", a2), ("logs", b2), ("traces", c2)] := by
    simpa only [defaultWeights] using he
  constructor
  · intro p hp
    rw [hd] at hp
    simp only [List.mem_cons, List.mem_singleton, List.not_mem_nil, or_false] at hp
    rcases hp with hp | hp | hp
    · rw [hp]; exact ha2
    · rw [hp]; exact hb2
    · rw [hp]; exact hc2
  · rw [hd]
    have : coreSum [("metrics", a2), ("logs", b2), ("traces", c2)] = a2 + b2 + c2 := by
      simp [coreSum, lookupD, List.find?]
    rw [this, hs2]
    norm_num

/-- C7 witness: a concrete two-update run through the amended theorem. -/
theorem C7_adaptive_weights_witness :
    (∀ u ∈ ([("logs", true), ("metrics", false)] : List (String × Bool)),
      u.1 ∈ coreSignals) ∧
    ((∀ p ∈ applyUpdates defaultWeights [("logs", true), ("metrics", false)], 0 ≤ p.2) ∧
     |coreSum (applyUpdates defaultWeights [("logs", true), ("metrics", false)]) - 1|
       ≤ 1/1000000000) :=
  ⟨by decide, C7_adaptive_weights [("logs", true), ("metrics", false)] (by decide)⟩

/-- C7 counterexample: updating with the fourth Signal enum member "events"
(accepted by update, which takes any Signal or string) drives the sum of the
metrics/logs/traces weights to 5/7, far outside 1e-9 of 1, refuting the claim
for arbitrary signals. -/
theorem C7_sum_over_core_counterexample :
    coreSum (applyUpdates defaultWeights [("events", true)]) = 5/7 ∧
    ¬ (|(5 : ℚ)/7 - 1| ≤ 1/1000000000) := by
  constructor
  · norm_num +decide [applyUpdates, updateW, lookupD, setKey, normalizeW,
      sumValues, qSum, defaultWeights, coreSum, List.find?]
  · rw [abs_sub_comm]
    norm_num [abs_of_nonneg]


theorem spike_sort : pySorted qlt spikeVals = spikeVals := by
  norm_num [pySorted, insBefore, qlt, spikeVals]

theorem spike_mean : qMean spikeVals = 1/17 := by
  norm_num [qMean, qSum, spikeVals]

theorem spike_z : spikeVals.map (fun v => (v - qMean spikeVals) / (4/17)) =
    [-(1/4), -(1/4), -(1/4), -(1/4), -(1/4), -(1/4), -(1/4), -(1/4),
     -(1/4), -(1/4), -(1/4), -(1/4), -(1/4), -(1/4), -(1/4), -(1/4), 4] := by
  simp only [spike_mean]
  norm_num [spikeVals]

theorem spike_med : qMedian spikeVals = 0 := by
  simp only [qMedian, spike_sort]
  norm_num [spikeVals]

theorem spike_abs : spikeVals.map (fun x => |x - qMedian spikeVals|) = spikeVals := by
  simp only [spike_med]
  norm_num [spikeVals]

theorem spike_mad : madScores spikeVals =
    [0, 0, 0, 0, 0, 0, 0, 0, 0, 0, 0, 0, 0, 0, 0, 0, 0] := by
  rw [madScores]
  rw [spike_abs, spike_med]
  norm_num [spikeVals]

theorem spike_cusum : detCusumFlags spikeVals (4/17) =
    [false, false, false, false, false, false, false, false, false, false,
     false, false, false, false, false, false, false] := by
  rw [detCusumFlags]
  rw [if_neg (by norm_num : ¬((4:ℚ)/17 = 0))]
  simp only [spike_z]
  norm_num [detCusumGo]

theorem spike_plo : qPercentile spikeVals (5/2) = 0 := by
  simp only [qPercentile, spike_sort]
  norm_num [spikeVals, List.getD]

theorem spike_phi : qPercentile spikeVals (195/2) = 3/5 := by
  simp only [qPercentile, spike_sort]
  norm_num [spikeVals, List.getD, show ((15:ℤ).toNat) = 15 from rfl]

theorem spike_recs : sampleRecs spikeTs spikeVals
    [-(1/4), -(1/4), -(1/4), -(1/4), -(1/4), -(1/4), -(1/4), -(1/4),
     -(1/4), -(1/4), -(1/4), -(1/4), -(1/4), -(1/4), -(1/4), -(1/4), 4]
    [0, 0, 0, 0, 0, 0, 0, 0, 0, 0, 0, 0, 0, 0, 0, 0, 0]
    [false, false, false, false, false, false, false, false, false, false,
     false, false, false, false, false, false, false]
    spikeIsoL spikeIsoS =
    [⟨0, 0, -(1/4), 0, false, 1, 0⟩, ⟨1, 0, -(1/4), 0, false, 1, 0⟩,
     ⟨2, 0, -(1/4), 0, false, 1, 0⟩, ⟨3, 0, -(1/4), 0, false, 1, 0⟩,
     ⟨4, 0, -(1/4), 0, false, 1, 0⟩, ⟨5, 0, -(1/4), 0, false, 1, 0⟩,
     ⟨6, 0, -(1/4), 0, false, 1, 0⟩, ⟨7, 0, -(1/4), 0, false, 1, 0⟩,
     ⟨8, 0, -(1/4), 0, false, 1, 0⟩, ⟨9, 0, -(1/4), 0, false, 1, 0⟩,
     ⟨10, 0, -(1/4), 0, false, 1, 0⟩, ⟨11, 0, -(1/4), 0, false, 1, 0⟩,
     ⟨12, 0, -(1/4), 0, false, 1, 0⟩, ⟨13, 0, -(1/4), 0, false, 1, 0⟩,
     ⟨14, 0, -(1/4), 0, false, 1, 0⟩, ⟨15, 0, -(1/4), 0, false, 1, 0⟩,
     spikeRec] := by
  norm_num [sampleRecs, spikeTs, spikeVals, spikeIsoL, spikeIsoS, spikeRec,
    List.replicate]

theorem flag_calm (t : ℚ) : anomalyFlag ⟨t, 0, -(1/4), 0, false, 1, 0⟩ = false := by
  norm_num [anomalyFlag, decide_eq_false_iff_not, abs_of_nonpos, abs_of_nonneg]

theorem flag_spike : anomalyFlag spikeRec = true := by
  norm_num [anomalyFlag, spikeRec, decide_eq_true_eq, abs_of_nonneg]

theorem spike_filter :
    List.filter anomalyFlag
    [⟨0, 0, -(1/4), 0, false, 1, 0⟩, ⟨1, 0, -(1/4), 0, false, 1, 0⟩,
     ⟨2, 0, -(1/4), 0, false, 1, 0⟩, ⟨3, 0, -(1/4), 0, false, 1, 0⟩,
     ⟨4, 0, -(1/4), 0, false, 1, 0⟩, ⟨5, 0, -(1/4), 0, false, 1, 0⟩,
     ⟨6, 0, -(1/4), 0, false, 1, 0⟩, ⟨7, 0, -(1/4), 0, false, 1, 0⟩,
     ⟨8, 0, -(1/4), 0, false, 1, 0⟩, ⟨9, 0, -(1/4), 0, false, 1, 0⟩,
     ⟨10, 0, -(1/4), 0, false, 1, 0⟩, ⟨11, 0, -(1/4), 0, false, 1, 0⟩,
     ⟨12, 0, -(1/4), 0, false, 1, 0⟩, ⟨13, 0, -(1/4), 0, false, 1, 0⟩,
     ⟨14, 0, -(1/4), 0, false, 1, 0⟩, ⟨15, 0, -(1/4), 0, false, 1, 0⟩,
     spikeRec] = [spikeRec] := by
  simp only [List.filter_cons, List.filter_nil, flag_calm, flag_spike]
  simp

theorem spike_mk :
    mkMetricAnomaly "m" (1/17) 0 (3/5) 0 spikeRec = spikeAnomaly := by
  norm_num [mkMetricAnomaly, spikeRec, spikeAnomaly, anomalyChangeType,
    anomalySeverity, Severity.from_score, roundTo]

theorem spike_tmax : qMax spikeTs = 16 := by norm_num [qMax, spikeTs, max_def]

theorem spike_tmin : qMin spikeTs = 0 := by norm_num [qMin, spikeTs, min_def]

theorem spike_density :
    applyDensityCap [spikeAnomaly] spikeTs = [spikeAnomaly] := by
  rw [applyDensityCap]
  rw [if_neg (by simp : ¬([spikeAnomaly] = []))]
  simp only [spike_tmax, spike_tmin]
  norm_num [spikeTs, max_def, min_def, Int.toNat_ofNat,
    show ⌈(3:ℚ)/4 * (1/60)⌉ = 1 from by norm_num [Int.ceil_eq_iff],
    show ⌈(1:ℚ)/80⌉ = 1 from by norm_num [Int.ceil_eq_iff]]

theorem spike_detect_eval :
    detect "m" spikeTs spikeVals (4/17) 0 spikeIsoL spikeIsoS =
      [spikeAnomaly] := by
  simp only [detect]
  rw [if_neg (by norm_num [spikeVals] : ¬(spikeVals.length < 12))]
  rw [if_neg (by norm_num : ¬((4:ℚ)/17 = 0))]
  rw [spike_z, spike_mad, spike_cusum, spike_recs, spike_plo, spike_phi,
    spike_mean, spike_filter]
  simp only [List.map_cons, List.map_nil, spike_mk]
  rw [show compressRuns [spikeAnomaly] = [spikeAnomaly] from by
    norm_num [compressRuns]]
  exact spike_density


theorem band_sort : pySorted qlt bandVals =
    [-1, -1, -1, -1, -1, -1, -1, 0, 0, 0, 0, 0, 0, 0, 0, 0, 0, 0, 0, 0, 0,
     0, 0, 0, 0, 0, 0, 0, 0, 0, 3, 4] := by
  norm_num [pySorted, insBefore, qlt, bandVals]

theorem band_mean : qMean bandVals = 0 := by
  norm_num [qMean, qSum, bandVals]

theorem band_z : bandVals.map (fun v => (v - qMean bandVals) / 1) = bandVals := by
  simp only [band_mean]
  norm_num [bandVals]

theorem band_med : qMedian bandVals = 0 := by
  simp only [qMedian, band_sort]
  norm_num [bandVals, List.getD]

theorem band_abs : bandVals.map (fun x => |x - qMedian bandVals|) =
    [0, 0, 1, 0, 1, 0, 1, 0, 1, 0, 1, 0, 1, 0, 1, 0,
     0, 0, 0, 0, 3, 0, 0, 0, 0, 4, 0, 0, 0, 0, 0, 0] := by
  simp only [band_med]
  norm_num [bandVals, abs_of_nonpos, abs_of_nonneg]

theorem band_abs_sort : pySorted qlt
    [0, 0, 1, 0, 1, 0, 1, 0, 1, 0, 1, 0, 1, 0, 1, 0,
     0, 0, 0, 0, 3, 0, 0, 0, 0, 4, 0, 0, 0, 0, 0, 0] =
    [0, 0, 0, 0, 0, 0, 0, 0, 0, 0, 0, 0, 0, 0, 0, 0, 0, 0, 0, 0, 0, 0, 0,
     1, 1, 1, 1, 1, 1, 1, 3, 4] := by
  norm_num [pySorted, insBefore, qlt]

theorem band_absmed : qMedian
    [0, 0, 1, 0, 1, 0, 1, 0, 1, 0, 1, 0, 1, 0, 1, 0,
     0, 0, 0, 0, 3, 0, 0, 0, 0, 4, 0, 0, 0, 0, 0, 0] = 0 := by
  simp only [qMedian, band_abs_sort]
  norm_num [List.getD]

theorem band_mad : madScores bandVals =
    [0, 0, 0, 0, 0, 0, 0, 0, 0, 0, 0, 0, 0, 0, 0, 0,
     0, 0, 0, 0, 0, 0, 0, 0, 0, 0, 0, 0, 0, 0, 0, 0] := by
  rw [madScores]
  rw [band_abs, band_absmed]
  norm_num [bandVals]

theorem band_cusum : detCusumFlags bandVals 1 =
    [false, false, false, false, false, false, false, false, false, false,
     false, false, false, false, false, false, false, false, false, false,
     false, false, false, false, false, false, false, false, false, false,
     false, false] := by
  rw [detCusumFlags]
  rw [if_neg (by norm_num : ¬((1:ℚ) = 0))]
  simp only [band_z]
  norm_num [bandVals, detCusumGo]


theorem band_plo : qPercentile bandVals (5/2) = -1 := by
  simp only [qPercentile, band_sort]
  norm_num [List.getD]

theorem band_phi : qPercentile bandVals (195/2) = 129/40 := by
  simp only [qPercentile, band_sort]
  norm_num [List.getD, show ((30:ℤ).toNat) = 30 from rfl]

theorem band_recs : sampleRecs bandTs bandVals bandVals
    [0, 0, 0, 0, 0, 0, 0, 0, 0, 0, 0, 0, 0, 0, 0, 0,
     0, 0, 0, 0, 0, 0, 0, 0, 0, 0, 0, 0, 0, 0, 0, 0]
    [false, false, false, false, false, false, false, false, false, false,
     false, false, false, false, false, false, false, false, false, false,
     false, false, false, false, false, false, false, false, false, false,
     false, false]
    bandIsoL bandIsoS =
    [⟨0, 0, 0, 0, false, 1, 0⟩, ⟨200, 0, 0, 0, false, 1, 0⟩,
     ⟨400, -1, -1, 0, false, 1, 0⟩, ⟨600, 0, 0, 0, false, 1, 0⟩,
     ⟨800, -1, -1, 0, false, 1, 0⟩, ⟨1000, 0, 0, 0, false, 1, 0⟩,
     ⟨1200, -1, -1, 0, false, 1, 0⟩, ⟨1400, 0, 0, 0, false, 1, 0⟩,
     ⟨1600, -1, -1, 0, false, 1, 0⟩, ⟨1800, 0, 0, 0, false, 1, 0⟩,
     ⟨2000, -1, -1, 0, false, 1, 0⟩, ⟨2200, 0, 0, 0, false, 1, 0⟩,
     ⟨2400, -1, -1, 0, false, 1, 0⟩, ⟨2600, 0, 0, 0, false, 1, 0⟩,
     ⟨2800, -1, -1, 0, false, 1, 0⟩, ⟨3000, 0, 0, 0, false, 1, 0⟩,
     ⟨3200, 0, 0, 0, false, 1, 0⟩, ⟨3400, 0, 0, 0, false, 1, 0⟩,
     ⟨3600, 0, 0, 0, false, 1, 0⟩, ⟨3800, 0, 0, 0, false, 1, 0⟩,
     bandRec3, ⟨4200, 0, 0, 0, false, 1, 0⟩,
     ⟨4400, 0, 0, 0, false, 1, 0⟩, ⟨4600, 0, 0, 0, false, 1, 0⟩,
     ⟨4800, 0, 0, 0, false, 1, 0⟩, bandRec4,
     ⟨5200, 0, 0, 0, false, 1, 0⟩, ⟨5400, 0, 0, 0, false, 1, 0⟩,
     ⟨5600, 0, 0, 0, false, 1, 0⟩, ⟨5800, 0, 0, 0, false, 1, 0⟩,
     ⟨6000, 0, 0, 0, false, 1, 0⟩, ⟨6200, 0, 0, 0, false, 1, 0⟩] := by
  norm_num [sampleRecs, bandTs, bandVals, bandIsoL, bandIsoS, bandRec3,
    bandRec4, List.replicate]

theorem flag_band_zero (t : ℚ) : anomalyFlag ⟨t, 0, 0, 0, false, 1, 0⟩ = false := by
  norm_num [anomalyFlag, decide_eq_false_iff_not, abs_of_nonpos, abs_of_nonneg]

theorem flag_band_neg (t : ℚ) : anomalyFlag ⟨t, -1, -1, 0, false, 1, 0⟩ = false := by
  norm_num [anomalyFlag, decide_eq_false_iff_not, abs_of_nonpos, abs_of_nonneg]

theorem flag_band_three : anomalyFlag bandRec3 = true := by
  norm_num [anomalyFlag, bandRec3, decide_eq_true_eq, abs_of_nonneg]

theorem flag_band_four : anomalyFlag bandRec4 = true := by
  norm_num [anomalyFlag, bandRec4, decide_eq_true_eq, abs_of_nonneg]

theorem band_filter :
    List.filter anomalyFlag
    [⟨0, 0, 0, 0, false, 1, 0⟩, ⟨200, 0, 0, 0, false, 1, 0⟩,
     ⟨400, -1, -1, 0, false, 1, 0⟩, ⟨600, 0, 0, 0, false, 1, 0⟩,
     ⟨800, -1, -1, 0, false, 1, 0⟩, ⟨1000, 0, 0, 0, false, 1, 0⟩,
     ⟨1200, -1, -1, 0, false, 1, 0⟩, ⟨1400, 0, 0, 0, false, 1, 0⟩,
     ⟨1600, -1, -1, 0, false, 1, 0⟩, ⟨1800, 0, 0, 0, false, 1, 0⟩,
     ⟨2000, -1, -1, 0, false, 1, 0⟩, ⟨2200, 0, 0, 0, false, 1, 0⟩,
     ⟨2400, -1, -1, 0, false, 1, 0⟩, ⟨2600, 0, 0, 0, false, 1, 0⟩,
     ⟨2800, -1, -1, 0, false, 1, 0⟩, ⟨3000, 0, 0, 0, false, 1, 0⟩,
     ⟨3200, 0, 0, 0, false, 1, 0⟩, ⟨3400, 0, 0, 0, false, 1, 0⟩,
     ⟨3600, 0, 0, 0, false, 1, 0⟩, ⟨3800, 0, 0, 0, false, 1, 0⟩,
     bandRec3, ⟨4200, 0, 0, 0, false, 1, 0⟩,
     ⟨4400, 0, 0, 0, false, 1, 0⟩, ⟨4600, 0, 0, 0, false, 1, 0⟩,
     ⟨4800, 0, 0, 0, false, 1, 0⟩, bandRec4,
     ⟨5200, 0, 0, 0, false, 1, 0⟩, ⟨5400, 0, 0, 0, false, 1, 0⟩,
     ⟨5600, 0, 0, 0, false, 1, 0⟩, ⟨5800, 0, 0, 0, false, 1, 0⟩,
     ⟨6000, 0, 0, 0, false, 1, 0⟩, ⟨6200, 0, 0, 0, false, 1, 0⟩] =
    [bandRec3, bandRec4] := by
  simp only [List.filter_cons, List.filter_nil, flag_band_zero, flag_band_neg,
    flag_band_three, flag_band_four]
  simp

theorem band_mk3 :
    mkMetricAnomaly "m" 0 (-1) (129/40) 0 bandRec3 = bandAnomaly3 := by
  norm_num [mkMetricAnomaly, bandRec3, bandAnomaly3, anomalyChangeType,
    anomalySeverity, Severity.from_score, roundTo]

theorem band_mk4 :
    mkMetricAnomaly "m" 0 (-1) (129/40) 0 bandRec4 = bandAnomaly4 := by
  norm_num [mkMetricAnomaly, bandRec4, bandAnomaly4, anomalyChangeType,
    anomalySeverity, Severity.from_score, roundTo]

theorem band_tmax : qMax bandTs = 6200 := by norm_num [qMax, bandTs, max_def]

theorem band_tmin : qMin bandTs = 0 := by norm_num [qMin, bandTs, min_def]

theorem band_compress :
    compressRuns [bandAnomaly3, bandAnomaly4] = [bandAnomaly3, bandAnomaly4] := by
  norm_num [compressRuns]

theorem band_density :
    applyDensityCap [bandAnomaly3, bandAnomaly4] bandTs =
      [bandAnomaly3, bandAnomaly4] := by
  rw [applyDensityCap]
  rw [if_neg (by simp : ¬([bandAnomaly3, bandAnomaly4] = []))]
  simp only [band_tmax, band_tmin]
  norm_num [bandTs, max_def, min_def,
    show ⌈(3:ℚ)/4 * (31/18)⌉ = 2 from by norm_num [Int.ceil_eq_iff],
    show ⌈(31:ℚ)/24⌉ = 2 from by norm_num [Int.ceil_eq_iff],
    show ((2:ℤ).toNat) = 2 from rfl]

theorem band_detect_eval :
    detect "m" bandTs bandVals 1 0 bandIsoL bandIsoS =
      [bandAnomaly3, bandAnomaly4] := by
  simp only [detect]
  rw [if_neg (by norm_num [bandVals] : ¬(bandVals.length < 12))]
  rw [if_neg (by norm_num : ¬((1:ℚ) = 0))]
  rw [band_z, band_mad, band_cusum, band_recs, band_plo, band_phi,
    band_mean, band_filter]
  simp only [List.map_cons, List.map_nil, band_mk3, band_mk4]
  rw [band_compress]
  exact band_density


/-- C2: every MetricAnomaly emitted by detect corresponds to a zipped sample
for which the statistical flag holds (|z| at zscore_threshold = 3, |MAD| at
mad_threshold = 4, or a CUSUM change point) or the isolation forest marks
the sample an outlier corroborated by |z| or |MAD| at 0.7 of the thresholds;
an isolation-only flag without corroboration is never emitted. -/
theorem C2_detect_flag_disjunction (metric : String) (ts vals : List ℚ)
    (sigma slope : ℚ) (isoL : List ℤ) (isoS : List ℚ) :
    ∀ a ∈ detect metric ts vals sigma slope isoL isoS,
      ∃ r ∈ sampleRecs ts vals
          (vals.map (fun v => (v - qMean vals) / sigma)) (madScores vals)
          (detCusumFlags vals sigma) isoL isoS,
        a = mkMetricAnomaly metric (qMean vals) (qPercentile vals (5/2))
              (qPercentile vals (195/2)) slope r ∧
        ((3 ≤ |r.z| ∨ 4 ≤ |r.m| ∨ r.c = true) ∨
         (r.isoL = -1 ∧ (3 * (7/10) ≤ |r.z| ∨ 4 * (7/10) ≤ |r.m|))) := by
  intro a ha
  obtain ⟨r, hr, he, hf⟩ :=
    detect_mem_flagged metric ts vals sigma slope isoL isoS a ha
  refine ⟨r, hr, he, ?_⟩
  have := of_decide_eq_true hf
  exact this

/-- Witness for C2: on 16 zeros followed by a 1 (true std 4/17), detect
emits exactly the spike sample, and the claim instantiates there. -/
theorem C2_detect_flag_disjunction_witness :
    (((4:ℚ)/17) ^ 2 = qVariance spikeVals ∧
      spikeAnomaly ∈ detect "m" spikeTs spikeVals (4/17) 0 spikeIsoL spikeIsoS) ∧
    (∃ r ∈ sampleRecs spikeTs spikeVals
        (spikeVals.map (fun v => (v - qMean spikeVals) / (4/17)))
        (madScores spikeVals) (detCusumFlags spikeVals (4/17))
        spikeIsoL spikeIsoS,
      spikeAnomaly = mkMetricAnomaly "m" (qMean spikeVals)
          (qPercentile spikeVals (5/2)) (qPercentile spikeVals (195/2)) 0 r ∧
      ((3 ≤ |r.z| ∨ 4 ≤ |r.m| ∨ r.c = true) ∨
       (r.isoL = -1 ∧ (3 * (7/10) ≤ |r.z| ∨ 4 * (7/10) ≤ |r.m|)))) := by
  have hvar : ((4:ℚ)/17) ^ 2 = qVariance spikeVals := by
    simp only [qVariance, spike_mean]
    norm_num [qSum, spikeVals]
  have hmem : spikeAnomaly ∈ detect "m" spikeTs spikeVals (4/17) 0
      spikeIsoL spikeIsoS := by
    rw [spike_detect_eval]
    exact List.mem_singleton.mpr rfl
  exact ⟨⟨hvar, hmem⟩,
    C2_detect_flag_disjunction "m" spikeTs spikeVals (4/17) 0 spikeIsoL
      spikeIsoS spikeAnomaly hmem⟩

/-- C3 (corrected): the expected_range of an emitted MetricAnomaly is the
rounded (2.5, 97.5) percentile band of the window, as a descriptive field;
no in-band suppression and no in-band severity clamp exists in detect (the
counterexample emits an in-band, medium-severity anomaly). -/
theorem C3_expected_range_descriptive (metric : String) (ts vals : List ℚ)
    (sigma slope : ℚ) (isoL : List ℤ) (isoS : List ℚ) :
    ∀ a ∈ detect metric ts vals sigma slope isoL isoS,
      a.expected_range = (roundTo 4 (qPercentile vals (5/2)),
                          roundTo 4 (qPercentile vals (195/2))) := by
  intro a ha
  obtain ⟨r, _hr, he, _hf⟩ :=
    detect_mem_flagged metric ts vals sigma slope isoL isoS a ha
  rw [he]
  rfl

/-- Witness for C3: on the spike series, the single emitted anomaly carries
the rounded percentile band as its expected_range. -/
theorem C3_expected_range_descriptive_witness :
    spikeAnomaly ∈ detect "m" spikeTs spikeVals (4/17) 0 spikeIsoL spikeIsoS ∧
    spikeAnomaly.expected_range = (roundTo 4 (qPercentile spikeVals (5/2)),
      roundTo 4 (qPercentile spikeVals (195/2))) := by
  have hmem : spikeAnomaly ∈ detect "m" spikeTs spikeVals (4/17) 0
      spikeIsoL spikeIsoS := by
    rw [spike_detect_eval]
    exact List.mem_singleton.mpr rfl
  exact ⟨hmem, C3_expected_range_descriptive "m" spikeTs spikeVals (4/17) 0
    spikeIsoL spikeIsoS spikeAnomaly hmem⟩

/-- Counterexample to C3 as stated: on a 32-sample zero-mean, unit-variance
series, detect emits an anomaly (value 3, flagged by z-score 3 and the
isolation forest) whose value lies strictly inside its expected_range
(-1, 3.225), and its severity is medium, not low: neither the suppression
reading nor the severity-clamp reading of the claim holds. -/
theorem C3_expected_range_counterexample :
    ((1:ℚ) ^ 2 = qVariance bandVals ∧
      bandAnomaly3 ∈ detect "m" bandTs bandVals 1 0 bandIsoL bandIsoS) ∧
    (bandAnomaly3.expected_range).1 < bandAnomaly3.value ∧
    bandAnomaly3.value < (bandAnomaly3.expected_range).2 ∧
    ¬ bandAnomaly3.severity = Severity.low := by
  have hvar : ((1:ℚ)) ^ 2 = qVariance bandVals := by
    simp only [qVariance, band_mean]
    norm_num [qSum, bandVals]
  have hmem : bandAnomaly3 ∈ detect "m" bandTs bandVals 1 0 bandIsoL
      bandIsoS := by
    rw [band_detect_eval]
    exact List.mem_cons_self _ _
  refine ⟨⟨hvar, hmem⟩, ?_, ?_, ?_⟩
  · norm_num [bandAnomaly3]
  · norm_num [bandAnomaly3]
  · simp [bandAnomaly3]


/-- Helper: dedupKeepFirst preserves membership. -/
theorem mem_dedupKeepFirst (l : List String) (x : String) :
    x ∈ dedupKeepFirst l ↔ x ∈ l := by
  induction l with
  | nil => simp [dedupKeepFirst]
  | cons y ys ih =>
    simp only [dedupKeepFirst, List.mem_cons]
    constructor
    · rintro (rfl | hx)
      · exact Or.inl rfl
      · exact Or.inr (ih.mp (List.mem_of_mem_filter hx))
    · rintro (rfl | hx)
      · exact Or.inl rfl
      · by_cases hxy : x = y
        · exact Or.inl hxy
        · refine Or.inr (List.mem_filter.mpr ⟨ih.mpr hx, ?_⟩)
          simp [hxy]

/-- Helper: dedupKeepFirst yields distinct keys. -/
theorem nodup_dedupKeepFirst (l : List String) : (dedupKeepFirst l).Nodup := by
  induction l with
  | nil => exact List.nodup_nil
  | cons y ys ih =>
    refine List.Nodup.cons ?_ (ih.filter _)
    intro hy
    rcases List.mem_filter.mp hy with ⟨_, hne⟩
    simp at hne

/-- Helper: counting after a decidable filter. -/
theorem count_filter_key {α : Type} [DecidableEq α] (l : List α)
    (p : α → Bool) (x : α) :
    List.count x (l.filter p) = if p x = true then List.count x l else 0 := by
  induction l with
  | nil => simp
  | cons y ys ih =>
    by_cases hp : p y = true
    · by_cases hx : y = x
      · subst hx
        simp [List.filter_cons, hp, List.count_cons, ih]
      · simp [List.filter_cons, hp, List.count_cons, ih, hx, Ne.symm hx]
    · by_cases hx : y = x
      · subst hx
        simp [List.filter_cons, hp, List.count_cons, ih]
      · simp [List.filter_cons, hp, List.count_cons, ih, hx, Ne.symm hx]

/-- Helper: summing an indicator over distinct keys. -/
theorem sum_ite_key (ks : List String) (hk : ks.Nodup) (k0 : String) (c : ℕ) :
    (ks.map (fun k => if k0 = k then c else 0)).sum =
      if k0 ∈ ks then c else 0 := by
  induction ks with
  | nil => simp
  | cons k ks ih =>
    rcases List.nodup_cons.mp hk with ⟨hknot, hnd⟩
    by_cases hek : k0 = k
    · subst hek
      have hnotin : k0 ∉ ks := hknot
      simp [ih hnd, hnotin]
    · simp [hek, ih hnd, Ne.symm hek]

/-- Helper: grouping by normalized key in key order partitions the list. -/
theorem partition_perm (f : MetricAnomaly → String) (l : List MetricAnomaly) :
    ((dedupKeepFirst (l.map f)).map
      (fun k => l.filter (fun a => f a = k))).flatten.Perm l := by
  apply List.perm_iff_count.mpr
  intro x
  rw [List.count_flatten, List.map_map]
  have hcnt : ∀ k, List.count x (l.filter (fun a => f a = k)) =
      if f x = k then List.count x l else 0 := by
    intro k
    rw [count_filter_key]
    by_cases h : f x = k <;> simp [h]
  have hmap : ((dedupKeepFirst (l.map f)).map
      ((List.count x) ∘ (fun k => l.filter (fun a => f a = k)))) =
      (dedupKeepFirst (l.map f)).map (fun k => if f x = k then List.count x l else 0) := by
    apply List.map_congr_left
    intro k _
    exact hcnt k
  rw [hmap, sum_ite_key _ (nodup_dedupKeepFirst _)]
  by_cases hx : x ∈ l
  · have : f x ∈ dedupKeepFirst (l.map f) :=
      (mem_dedupKeepFirst _ _).mpr (List.mem_map_of_mem f hx)
    simp [this]
  · have hc0 : List.count x l = 0 := List.count_eq_zero.mpr hx
    simp [hc0]

/-- Helper: the density keep selects from the group. -/
theorem densityKeep_subset (k : ℕ) (g : List MetricAnomaly) (a : MetricAnomaly)
    (ha : a ∈ densityKeep k g) : a ∈ g := by
  unfold densityKeep at ha
  split at ha
  · exact ha
  · exact (mem_pySorted _ _ _).mp (List.mem_of_mem_take ha)

/-- Helper: the length of a capped group. -/
theorem densityKeep_length (k : ℕ) (g : List MetricAnomaly) :
    (densityKeep k g).length = if g.length ≤ k then g.length else k := by
  unfold densityKeep
  split
  · rfl
  · rename_i h
    rw [List.length_take, (pySorted_perm densityGt g).length_eq]
    omega

/-- Helper: a capped group never exceeds the cap. -/
theorem densityKeep_length_le (k : ℕ) (g : List MetricAnomaly) :
    (densityKeep k g).length ≤ k := by
  rw [densityKeep_length]
  split <;> omega

/-- Helper: per-group suppression counts add up to the length deficit. -/
theorem sum_caps (k : ℕ) (gs : List (List MetricAnomaly)) :
    (gs.map (fun g => if g.length ≤ k then 0 else g.length - k)).sum =
      (gs.map List.length).sum -
        (gs.map (fun g => (densityKeep k g).length)).sum ∧
    (gs.map (fun g => (densityKeep k g).length)).sum ≤
      (gs.map List.length).sum := by
  induction gs with
  | nil => simp
  | cons g gs ih =>
    rcases ih with ⟨ih1, ih2⟩
    have hg := densityKeep_length k g
    simp only [List.map_cons, List.sum_cons]
    constructor
    · rw [ih1, hg]
      split <;> omega
    · rw [hg]
      split <;> omega

/-- Helper: flattening groups of which at most one is nonempty. -/
theorem flatten_ite (ks : List String) (hk : ks.Nodup) (k0 : String)
    (A : List MetricAnomaly) (f : String → List MetricAnomaly)
    (hf : ∀ k ∈ ks, f k = if k = k0 then A else []) :
    (ks.map f).flatten = if k0 ∈ ks then A else [] := by
  induction ks with
  | nil => simp
  | cons k ks ih =>
    rcases List.nodup_cons.mp hk with ⟨hknot, hnd⟩
    have hfk := hf k (List.mem_cons_self _ _)
    have hrest : ∀ j ∈ ks, f j = if j = k0 then A else [] :=
      fun j hj => hf j (List.mem_cons_of_mem _ hj)
    by_cases hek : k = k0
    · subst hek
      have hnotin : k ∉ ks := hknot
      rw [List.map_cons, List.flatten_cons, hfk, ih hnd hrest]
      simp [hnotin]
    · by_cases h0 : k0 ∈ ks
      · rw [List.map_cons, List.flatten_cons, hfk, ih hnd hrest, if_neg hek,
          if_pos h0, if_pos (List.mem_cons_of_mem _ h0), List.nil_append]
      · have hnot : k0 ∉ k :: ks := by
          intro hmem
          rcases List.mem_cons.mp hmem with h | h
          · exact hek h.symm
          · exact h0 h
        rw [List.map_cons, List.flatten_cons, hfk, ih hnd hrest, if_neg hek,
          if_neg h0, if_neg hnot, List.nil_append]

/-- Helper: reading back a freshly assigned suppression count. -/
theorem lookupCount_setCount (c : List (String × ℕ)) (k : String) (v d : ℕ) :
    lookupCount (setCount c k v) k d = v := by
  induction c with
  | nil => simp [setCount, lookupCount, List.find?]
  | cons p rest ih =>
    by_cases hp : p.1 = k
    · simp [setCount, hp, lookupCount, List.find?]
    · simp only [setCount, hp, if_false]
      simp only [lookupCount, List.find?] at ih ⊢
      simp [hp, ih]


/-- C4: with a profile beginning with "precision" (after strip/lower), the
density stage of the analyzer quality gate leaves, for every metric name, at
most ceil(0.75 * hours_in_window) anomalies; per metric the survivors are a
permutation of the top-ranked segment by severity weight, |z|, |MAD| (then
timestamp, stable-descending); and the density_suppressed_metric_anomalies
suppression count grows by exactly the number of anomalies dropped. -/
theorem C4_precision_density_gate (profile : String)
    (anomalies : List MetricAnomaly) (duration : ℚ)
    (counts : List (String × ℕ)) (warns : List String)
    (hprec : isPrecisionProfile profile = true) :
    (∀ name : String,
      (((applyPrecisionDensityGate profile anomalies duration counts warns).1).filter
          (fun a => normMetric a.metric_name = name)).length ≤
        (⌈(3/4 : ℚ) * max (duration / 3600) (1/60)⌉).toNat) ∧
    (∀ name : String,
      (((applyPrecisionDensityGate profile anomalies duration counts warns).1).filter
          (fun a => normMetric a.metric_name = name)).Perm
        (densityKeep (⌈(3/4 : ℚ) * max (duration / 3600) (1/60)⌉).toNat
          (anomalies.filter (fun a => normMetric a.metric_name = name)))) ∧
    lookupCount
        (applyPrecisionDensityGate profile anomalies duration counts warns).2.1
        "density_suppressed_metric_anomalies" 0 =
      lookupCount counts "density_suppressed_metric_anomalies" 0 +
        (anomalies.length -
          ((applyPrecisionDensityGate profile anomalies duration counts warns).1).length) := by
  have hKpos : 0 < (⌈(3/4 : ℚ) * max (duration / 3600) (1/60)⌉).toNat := by
    have h1 : (0:ℚ) < 3/4 * max (duration / 3600) (1/60) := by
      have hm : (0:ℚ) < max (duration / 3600) (1/60) :=
        lt_of_lt_of_le (by norm_num) (le_max_right _ _)
      positivity
    have h2 : 0 < ⌈(3/4 : ℚ) * max (duration / 3600) (1/60)⌉ := Int.ceil_pos.mpr h1
    omega
  by_cases hne : anomalies = []
  · subst hne
    have hcond : ¬(isPrecisionProfile profile = true ∧
        ([] : List MetricAnomaly) ≠ []) := by
      rintro ⟨-, h⟩
      exact h rfl
    simp only [applyPrecisionDensityGate]
    rw [if_neg hcond]
    refine ⟨?_, ?_, ?_⟩
    · intro name
      simp
    · intro name
      simp [densityKeep]
    · simp
  · simp only [applyPrecisionDensityGate]
    rw [if_pos ⟨hprec, hne⟩]
    rw [Nat.max_eq_right hKpos]
    set K := (⌈(3/4 : ℚ) * max (duration / 3600) (1/60)⌉).toNat with hKdef
    set keys := dedupKeepFirst (anomalies.map (fun a => normMetric a.metric_name))
      with hkeysdef
    set groups := keys.map
      (fun k => anomalies.filter (fun a => normMetric a.metric_name = k))
      with hgroupsdef
    set filtered := (groups.map (densityKeep K)).flatten with hfiltdef
    set sup := (groups.map (fun g =>
      if g.length ≤ K then 0 else g.length - K)).sum with hsupdef
    set out := pySorted gateOutLt filtered with houtdef
    have hkeymem : ∀ a ∈ anomalies, normMetric a.metric_name ∈ keys := by
      intro a ha
      rw [hkeysdef]
      exact (mem_dedupKeepFirst _ _).mpr (List.mem_map_of_mem _ ha)
    have hknodup : keys.Nodup := by
      rw [hkeysdef]
      exact nodup_dedupKeepFirst _
    have hsubkey : ∀ k a,
        a ∈ densityKeep K (anomalies.filter
          (fun x => normMetric x.metric_name = k)) →
        normMetric a.metric_name = k := by
      intro k a ha
      have h1 := densityKeep_subset _ _ _ ha
      have h2 := List.mem_filter.mp h1
      simpa using h2.2
    have hfcore : ∀ name : String,
        filtered.filter (fun a => normMetric a.metric_name = name) =
          densityKeep K (anomalies.filter
            (fun a => normMetric a.metric_name = name)) := by
      intro name
      rw [hfiltdef, List.filter_flatten, List.map_map, hgroupsdef, List.map_map]
      have hstep := flatten_ite keys hknodup name
        (densityKeep K (anomalies.filter
          (fun a => normMetric a.metric_name = name)))
        (fun k => (densityKeep K (anomalies.filter
          (fun a => normMetric a.metric_name = k))).filter
          (fun a => normMetric a.metric_name = name))
        (by
          intro k _
          by_cases hkn : k = name
          · subst hkn
            rw [if_pos rfl]
            apply List.filter_eq_self.mpr
            intro a ha
            simpa using hsubkey k a ha
          · rw [if_neg hkn]
            apply List.filter_eq_nil_iff.mpr
            intro a ha
            have hk := hsubkey k a ha
            simp [hk, hkn])
      rw [show ((fun l => List.filter
            (fun a => decide (normMetric a.metric_name = name)) l) ∘
            densityKeep K) ∘
          (fun k => anomalies.filter
            (fun a => decide (normMetric a.metric_name = k))) =
          (fun k => (densityKeep K (anomalies.filter
            (fun a => normMetric a.metric_name = k))).filter
            (fun a => normMetric a.metric_name = name)) from rfl]
      rw [hstep]
      by_cases hname : name ∈ keys
      · rw [if_pos hname]
      · rw [if_neg hname]
        have hempty : anomalies.filter
            (fun a => normMetric a.metric_name = name) = [] := by
          apply List.filter_eq_nil_iff.mpr
          intro a ha
          have := hkeymem a ha
          intro hdec
          apply hname
          have heq : normMetric a.metric_name = name := of_decide_eq_true hdec
          rw [← heq]
          exact this
        rw [hempty]
        simp [densityKeep]
    have hpermname : ∀ name : String,
        (out.filter (fun a => normMetric a.metric_name = name)).Perm
          (densityKeep K (anomalies.filter
            (fun a => normMetric a.metric_name = name))) := by
      intro name
      have h1 : (out.filter (fun a => normMetric a.metric_name = name)).Perm
          (filtered.filter (fun a => normMetric a.metric_name = name)) := by
        apply List.Perm.filter
        rw [houtdef]
        exact pySorted_perm _ _
      rw [hfcore name] at h1
      exact h1
    have hlenout : out.length = filtered.length := by
      rw [houtdef]
      exact (pySorted_perm _ _).length_eq
    have hlenanom : (groups.map List.length).sum = anomalies.length := by
      have hp := partition_perm (fun a => normMetric a.metric_name) anomalies
      rw [← hkeysdef, ← hgroupsdef] at hp
      rw [← List.length_flatten]
      exact hp.length_eq
    have hfiltlen : filtered.length =
        (groups.map (fun g => (densityKeep K g).length)).sum := by
      rw [hfiltdef, List.length_flatten, List.map_map]
      rfl
    obtain ⟨hsub_eq, hsub_le⟩ := sum_caps K groups
    have hdiff : anomalies.length - out.length = sup := by
      rw [hlenout, hfiltlen, ← hlenanom, hsupdef, hsub_eq]
    by_cases hsup : 0 < sup
    · rw [if_pos hsup]
      refine ⟨?_, ?_, ?_⟩
      · intro name
        have hl := (hpermname name).length_eq
        dsimp only at hl ⊢
        rw [hl]
        exact densityKeep_length_le _ _
      · intro name
        dsimp only
        exact hpermname name
      · dsimp only
        rw [lookupCount_setCount, hdiff]
    · rw [if_neg hsup]
      have hsup0 : sup = 0 := by omega
      refine ⟨?_, ?_, ?_⟩
      · intro name
        have hl := (hpermname name).length_eq
        dsimp only at hl ⊢
        rw [hl]
        exact densityKeep_length_le _ _
      · intro name
        dsimp only
        exact hpermname name
      · dsimp only
        rw [hdiff, hsup0]
        omega


/-- Witness for C4: two same-metric anomalies in a one-minute window
(cap 1): the higher-severity one survives, the suppression count becomes 1
and the warning is recorded; the claim instantiates there. -/
theorem C4_precision_density_gate_witness :
    (isPrecisionProfile "precision_strict_v1" = true ∧
      applyPrecisionDensityGate "precision_strict_v1"
          [⟨"m", 1, 1, .spike, 1, 0, 0, (0, 0), .low⟩,
           ⟨"m", 2, 2, .spike, 5, 0, 0, (0, 0), .high⟩] 60 [] [] =
        ([⟨"m", 2, 2, .spike, 5, 0, 0, (0, 0), .high⟩],
         [("density_suppressed_metric_anomalies", 1)],
         ["Quality gate suppressed " ++ Nat.repr 1 ++
           " metric anomaly(ies) above density cap 0.75/metric/hour."])) ∧
    ((∀ name : String,
      (((applyPrecisionDensityGate "precision_strict_v1"
            [⟨"m", 1, 1, .spike, 1, 0, 0, (0, 0), .low⟩,
             ⟨"m", 2, 2, .spike, 5, 0, 0, (0, 0), .high⟩] 60 [] []).1).filter
          (fun a => normMetric a.metric_name = name)).length ≤
        (⌈(3/4 : ℚ) * max ((60:ℚ) / 3600) (1/60)⌉).toNat) ∧
    (∀ name : String,
      (((applyPrecisionDensityGate "precision_strict_v1"
            [⟨"m", 1, 1, .spike, 1, 0, 0, (0, 0), .low⟩,
             ⟨"m", 2, 2, .spike, 5, 0, 0, (0, 0), .high⟩] 60 [] []).1).filter
          (fun a => normMetric a.metric_name = name)).Perm
        (densityKeep (⌈(3/4 : ℚ) * max ((60:ℚ) / 3600) (1/60)⌉).toNat
          ([⟨"m", 1, 1, .spike, 1, 0, 0, (0, 0), .low⟩,
            ⟨"m", 2, 2, .spike, 5, 0, 0, (0, 0), .high⟩].filter
            (fun a => normMetric a.metric_name = name)))) ∧
    lookupCount
        (applyPrecisionDensityGate "precision_strict_v1"
          [⟨"m", 1, 1, .spike, 1, 0, 0, (0, 0), .low⟩,
           ⟨"m", 2, 2, .spike, 5, 0, 0, (0, 0), .high⟩] 60 [] []).2.1
        "density_suppressed_metric_anomalies" 0 =
      lookupCount [] "density_suppressed_metric_anomalies" 0 +
        (([⟨"m", 1, 1, .spike, 1, 0, 0, (0, 0), .low⟩,
           ⟨"m", 2, 2, .spike, 5, 0, 0, (0, 0), .high⟩] :
            List MetricAnomaly).length -
          ((applyPrecisionDensityGate "precision_strict_v1"
            [⟨"m", 1, 1, .spike, 1, 0, 0, (0, 0), .low⟩,
             ⟨"m", 2, 2, .spike, 5, 0, 0, (0, 0), .high⟩] 60 [] []).1).length)) := by
  have hp : isPrecisionProfile "precision_strict_v1" = true := by decide
  have hev : applyPrecisionDensityGate "precision_strict_v1"
      [⟨"m", 1, 1, .spike, 1, 0, 0, (0, 0), .low⟩,
       ⟨"m", 2, 2, .spike, 5, 0, 0, (0, 0), .high⟩] 60 [] [] =
      ([⟨"m", 2, 2, .spike, 5, 0, 0, (0, 0), .high⟩],
       [("density_suppressed_metric_anomalies", 1)],
       ["Quality gate suppressed " ++ Nat.repr 1 ++
         " metric anomaly(ies) above density cap 0.75/metric/hour."]) := by
    rw [applyPrecisionDensityGate]
    rw [if_pos ⟨by decide, by simp⟩]
    norm_num [normMetric, pyStrip, dedupKeepFirst, densityKeep, densityGt,
      pySorted, insBefore, gateOutLt, charsLt, lookupCount, setCount,
      List.find?, max_def, Severity.weight,
      show ⌈(3:ℚ)/4 * (1/60)⌉ = 1 from by norm_num [Int.ceil_eq_iff],
      show ⌈(1:ℚ)/80⌉ = 1 from by norm_num [Int.ceil_eq_iff],
      show ((1:ℤ).toNat) = 1 from rfl]
  exact ⟨⟨hp, hev⟩,
    C4_precision_density_gate "precision_strict_v1"
      [⟨"m", 1, 1, .spike, 1, 0, 0, (0, 0), .low⟩,
       ⟨"m", 2, 2, .spike, 5, 0, 0, (0, 0), .high⟩] 60 [] [] hp⟩

end BC
